import Mathlib

/-!
# wh-deploy-kit: validation core

A shallow embedding of `src/lib/utils.js`, `src/config/constants.js` and the
`init`, `validate`, `add` and `remove` command handlers of `src/index.js`, with
theorems about the validators, the address canonicaliser, the mode-constraint
checker and what the command handlers write to the configuration file.

JavaScript strings are modelled by Lean strings, i.e. lists of Unicode scalar
values.  Every pattern and prefix the program uses is ASCII, so matching on
code points and matching on UTF-16 code units agree; where the program reads
`.length` the UTF-16 length is computed explicitly (`utf16Length`).
-/

namespace WhDeployKit

/-! ## The regular-expression fragment used by the validators

All three validator patterns have the shape `^ item item ... $` where every
item is a character class (or a literal character) with a bounded repetition
`{lo,hi}`.  The patterns carry no flags, so `^` and `$` match only at the two
ends of the input. -/

/-- A character class: a list of inclusive code-point ranges, as written
between `[` and `]`. -/
abbrev CharClass := List (Char × Char)

/-- Membership of a character in a class: its code point lies in one of the
ranges. -/
def CharClass.test (cls : CharClass) (c : Char) : Bool :=
  cls.any fun r => decide (r.1.toNat ≤ c.toNat) && decide (c.toNat ≤ r.2.toNat)

/-- One pattern item: a class repeated between `lo` and `hi` times. -/
structure Item where
  cls : CharClass
  lo : Nat
  hi : Nat

/-- A literal character is the one-point class matched exactly once. -/
def Item.lit (c : Char) : Item := ⟨[(c, c)], 1, 1⟩

/-- Backtracking match of `cls{lo,hi}` followed by the continuation `k`:
greedily consume one more character of the class, else stop here when the
lower bound has been reached. -/
def matchRep (cls : CharClass) (k : List Char → Bool) : Nat → Nat → List Char → Bool
  | lo, 0, s => lo == 0 && k s
  | lo, hi + 1, s =>
    (match s with
      | c :: t => cls.test c && matchRep cls k (lo - 1) hi t
      | [] => false) || (lo == 0 && k s)

/-- Match a whole anchored pattern `^ items $` against the input. -/
def matchItems : List Item → List Char → Bool
  | [], s => s.isEmpty
  | it :: rest, s => matchRep it.cls (matchItems rest) it.lo it.hi s

/-- The method `RegExp.prototype.test` for an anchored pattern. -/
def regexTest (re : List Item) (s : String) : Bool := matchItems re s.toList

/-- The class `[a-fA-F0-9]`. -/
def hexClass : CharClass := [('a', 'f'), ('A', 'F'), ('0', '9')]

/-- The class `[1-9A-HJ-NP-Za-km-z]`. -/
def base58Class : CharClass :=
  [('1', '9'), ('A', 'H'), ('J', 'N'), ('P', 'Z'), ('a', 'k'), ('m', 'z')]

/-- The pattern `/^0x[a-fA-F0-9]{40}$/`. -/
def ethereumAddressRegex : List Item := [Item.lit '0', Item.lit 'x', ⟨hexClass, 40, 40⟩]

/-- The pattern `/^[1-9A-HJ-NP-Za-km-z]{32,44}$/`. -/
def solanaAddressRegex : List Item := [⟨base58Class, 32, 44⟩]

/-- The pattern `/^[a-fA-F0-9]{64}$/`. -/
def privateKeyRegex : List Item := [⟨hexClass, 64, 64⟩]

/-! ## String helpers -/

/-- The property `String.prototype.length`: the number of UTF-16 code units. -/
def utf16Length (s : String) : Nat :=
  (s.toList.map fun c => if c.toNat < 65536 then 1 else 2).sum

/-- The method `String.prototype.replace` with a string pattern: only the
first occurrence of `pat` (wherever it is) is replaced by `rep`. -/
def replaceFirst (pat rep : List Char) : List Char → List Char
  | [] => if pat.isPrefixOf [] then rep else []
  | c :: t =>
    if pat.isPrefixOf (c :: t) then rep ++ (c :: t).drop pat.length
    else c :: replaceFirst pat rep t

/-- The method `String.prototype.startsWith`. -/
def startsWith (s pre : String) : Bool := pre.toList.isPrefixOf s.toList

/-! ## `src/lib/utils.js`: validators -/

/-- Source: `isValidEthereumAddress`, `/^0x[a-fA-F0-9]{40}$/.test(address)`. -/
def isValidEthereumAddress (address : String) : Bool :=
  regexTest ethereumAddressRegex address

/-- Source: `isValidSolanaAddress`, `/^[1-9A-HJ-NP-Za-km-z]{32,44}$/.test(address)`. -/
def isValidSolanaAddress (address : String) : Bool :=
  regexTest solanaAddressRegex address

/-- Source: `isValidPrivateKey`. -/
def isValidPrivateKey (key chain : String) : Bool :=
  if chain == "solana" then
    decide (utf16Length key > 20)
  else
    let cleanKey := String.mk (replaceFirst "0x".toList "".toList key.toList)
    regexTest privateKeyRegex cleanKey

/-! ## `src/config/constants.js` -/

/-- Source: `CONFIG_FILE`. -/
def CONFIG_FILE : String := "wormhole.config.json"

/-- Source: `CHAINS`. -/
def CHAINS : List String := ["ethereum", "arbitrum", "optimism", "base", "solana"]

/-- Source: `NETWORKS`. -/
def NETWORKS : List String := ["mainnet", "testnet", "devnet"]

/-- Source: `MODES`. -/
def MODES : List String := ["locking", "burning"]

/-! ## Property reads on plain objects

A plain object (an object literal, or an object built by `JSON.parse`) is
modelled by the list of its own entries in iteration order.  A property read
`obj[key]` that finds no own entry continues on `Object.prototype`. -/

/-- The property names every plain object inherits from `Object.prototype`;
each of them reads as a function or an object, hence as a truthy value. -/
def objectPrototypeKeys : List String :=
  ["constructor", "__defineGetter__", "__defineSetter__", "hasOwnProperty",
    "__lookupGetter__", "__lookupSetter__", "isPrototypeOf", "propertyIsEnumerable",
    "toString", "valueOf", "__proto__", "toLocaleString"]

/-- The value of a property read `obj[key]`. -/
inductive PropertyValue (α : Type) where
  | own (value : α)
  | inherited (key : String)
  | undefined
  deriving DecidableEq, Repr

/-- The property read `obj[key]` on a plain object given by its own entries. -/
def getProperty {α : Type} (entries : List (String × α)) (key : String) : PropertyValue α :=
  match entries.find? fun e => e.1 == key with
  | some e => .own e.2
  | none => if objectPrototypeKeys.contains key then .inherited key else .undefined

/-- Truthiness of a property value, given the truthiness of own values. -/
def PropertyValue.truthy {α : Type} (ownTruthy : α → Bool) : PropertyValue α → Bool
  | .own v => ownTruthy v
  | .inherited _ => true
  | .undefined => false

/-- Source: `CHAIN_NAME_MAP`. -/
def CHAIN_NAME_MAP : List (String × String) :=
  [("ethereum", "Ethereum"), ("arbitrum", "Arbitrum"), ("optimism", "Optimism"),
    ("base", "Base"), ("solana", "Solana")]

/-! ## `src/lib/utils.js`: URL check and address canonicaliser -/

/-- Source: `isValidUrl`.  The platform's `URL` constructor is a parameter:
`newURL url` is `.ok ()` when `new URL(url)` constructs and `.error message`
when it throws.  The `catch` clause turns every exception into `false`. -/
def isValidUrl (newURL : String → Except String Unit) (url : String) : Except String Bool :=
  tryCatch
    (do
      newURL url
      pure (startsWith url "http://" || startsWith url "https://"))
    (fun _ => pure false)

/-- The external addressing library: `toNative(name, address)` followed by
`.toUniversalAddress().toString()`, which yields a string or throws. -/
abbrev AddressLibrary := PropertyValue String → String → Except String String

/-- What a call of `convertToWormholeFormat` does: the value returned or the
message of the error thrown, and the calls made to the addressing library. -/
structure Conversion where
  result : Except String String
  libraryCalls : List (PropertyValue String × String)

/-- Source: the first statement of the `try` block of
`convertToWormholeFormat`, the chain-dependent format check. -/
def checkAddressFormat (address chain : String) : Except String Unit :=
  if chain == "solana" then
    if !isValidSolanaAddress address then
      throw ("Invalid Solana address format: " ++ address)
    else pure ()
  else
    if !isValidEthereumAddress address then
      throw ("Invalid Ethereum address format: " ++ address)
    else pure ()

/-- Source: the `try` block of `convertToWormholeFormat`. -/
def convertBody (lib : AddressLibrary) (address chain : String) : Conversion :=
  match checkAddressFormat address chain with
  | .error message => ⟨.error message, []⟩
  | .ok _ =>
    let wormholeChainName := getProperty CHAIN_NAME_MAP chain
    if !wormholeChainName.truthy (fun name => name != "") then
      ⟨.error ("Unsupported chain: " ++ chain), []⟩
    else
      ⟨lib wormholeChainName address, [(wormholeChainName, address)]⟩

/-- Source: the message built in the `catch` clause of
`convertToWormholeFormat`. -/
def conversionFailure (chain message : String) : String :=
  "Failed to convert " ++ chain ++ " address to Wormhole format: " ++ message

/-- Source: `convertToWormholeFormat`; the `catch` clause rethrows every
error with the conversion wrapper in front of its message. -/
def convertToWormholeFormat (lib : AddressLibrary) (address chain : String) : Conversion :=
  let body := convertBody lib address chain
  match body.result with
  | .ok universalAddress => ⟨.ok universalAddress, body.libraryCalls⟩
  | .error message => ⟨.error (conversionFailure chain message), body.libraryCalls⟩

/-! ## The configuration document -/

/-- One chain's entry of the configuration document. -/
structure ChainConfig where
  rpc : String
  privateKey : String
  tokenAddress : String
  mode : String
  deriving DecidableEq, Repr

/-- The `chains` object: its own entries in iteration order. -/
abbrev Chains := List (String × ChainConfig)

/-- The configuration document; either field may be absent from the JSON. -/
structure Config where
  network : Option String
  chains : Option Chains
  deriving DecidableEq, Repr

/-- The state of the configuration file on disk. -/
inductive ConfigFile where
  | missing
  | unreadable (message : String)
  | document (config : Config)
  deriving DecidableEq, Repr

/-- How a command handler ends. -/
inductive Status where
  | returned
  | exit (code : Nat)
  | uncaught (message : String)
  deriving DecidableEq, Repr

/-- A run of a command handler: the lines printed, how it ended, and the
configuration file afterwards. -/
structure Run where
  output : List String
  status : Status
  file : ConfigFile
  deriving DecidableEq, Repr

/-- Source: `loadConfig`; the second component is what it prints. -/
def loadConfig : ConfigFile → Option Config × List String
  | .missing => (none, [])
  | .unreadable message => (none, ["Error reading config file: " ++ message])
  | .document config => (some config, [])

/-- Source: `saveConfig`; `writable` tells whether `fs.writeFileSync`
succeeds.  Returns the boolean result, the file afterwards and what is
printed.  A failure stands for a write that is refused before the file is
touched (permission denied, say), with a fixed text in place of
`error.message`; a write that breaks off after the file was truncated is not
covered. -/
def saveConfig (writable : Bool) (file : ConfigFile) (config : Config) :
    Bool × ConfigFile × List String :=
  if writable then (true, .document config, [])
  else (false, file, ["Error writing config file: write failed"])

/-- The builtin `Object.entries`, which throws on `undefined`. -/
def objectEntries (chains : Option Chains) : Except String Chains :=
  match chains with
  | some entries => pure entries
  | none => throw "TypeError: Cannot convert undefined or null to object"

/-! ## `src/lib/utils.js`: mode-constraint checker -/

/-- The object returned by `validateModeConstraints`. -/
structure ModeValidation where
  valid : Bool
  error : Option String
  deriving DecidableEq, Repr

/-- Source: `validateModeConstraints`. -/
def validateModeConstraints (chains : Option Chains) : Except String ModeValidation := do
  let entries ← objectEntries chains
  let lockingChains := entries.filter fun e => e.2.mode == "locking"
  if lockingChains.length > 1 then
    pure
      { valid := false
        error := some ("Only ONE chain can use LOCKING mode. Found: " ++
          ", ".intercalate (lockingChains.map fun e => e.1)) }
  else
    pure { valid := true, error := none }

/-! ## `src/index.js`: the `validate` command -/

/-- The progress of `validateConfig`: the lines printed so far and the flag
`hasErrors`. -/
structure Report where
  output : List String
  hasErrors : Bool
  deriving DecidableEq, Repr

/-- Print a diagnostic and set `hasErrors`. -/
def Report.fail (r : Report) (line : String) : Report := ⟨r.output ++ [line], true⟩

/-- Print a line and leave `hasErrors` as it is. -/
def Report.pass (r : Report) (line : String) : Report := ⟨r.output ++ [line], r.hasErrors⟩

/-- How a value that may be `undefined` appears in a template literal. -/
def display : Option String → String
  | some s => s
  | none => "undefined"

/-- Truthiness of a value that is a string or `undefined`. -/
def truthyString : Option String → Bool
  | some s => s != ""
  | none => false

/-- The method `Array.prototype.includes` applied to a string or `undefined`. -/
def includes (xs : List String) : Option String → Bool
  | some s => xs.contains s
  | none => false

/-- Source: the callback of the `forEach` loop in `validateConfig`. -/
def checkChain (newURL : String → Except String Unit) (r : Report)
    (entry : String × ChainConfig) : Except String Report := do
  let name := entry.1
  let chainConfig := entry.2
  let r := if !CHAINS.contains name then r.fail ("✗ Invalid chain: " ++ name) else r
  let rpcOk ← isValidUrl newURL chainConfig.rpc
  let r :=
    if !rpcOk then r.fail ("✗ Invalid RPC URL for " ++ name ++ ": " ++ chainConfig.rpc) else r
  let r :=
    if !(chainConfig.tokenAddress != "") then r.fail ("✗ Missing token address for " ++ name)
    else r
  let r :=
    if !MODES.contains chainConfig.mode then
      r.fail ("✗ Invalid mode for " ++ name ++ ": " ++ chainConfig.mode)
    else r
  pure r

/-- Source: the network check of `validateConfig`. -/
def checkNetwork (network : Option String) (r : Report) : Report :=
  if !truthyString network || !includes NETWORKS network then
    r.fail ("✗ Invalid network: " ++ display network)
  else r.pass ("✓ Network: " ++ display network)

/-- Source: the chain-count check of `validateConfig`; the length is read only
when `config.chains` is truthy. -/
def checkChainCount (chains : Option Chains) (r : Report) : Report :=
  match chains with
  | none => r.fail "✗ At least 2 chains are required"
  | some entries =>
    if entries.length < 2 then r.fail "✗ At least 2 chains are required"
    else r.pass ("✓ Chain count: " ++ toString entries.length)

/-- Source: the report of the mode-constraint result in `validateConfig`. -/
def checkModeValidation (validation : ModeValidation) (r : Report) : Report :=
  if !validation.valid then r.fail ("✗ " ++ display validation.error)
  else r.pass "✓ Mode constraints valid"

/-- Source: `validateConfig`, after `loadConfig` has returned a document:
the progress made, and the message of the exception that escaped, if any. -/
def validateLoaded (newURL : String → Except String Unit) (config : Config)
    (printed : List String) : Report × Option String :=
  let r : Report := ⟨printed ++ ["Validating configuration...\n"], false⟩
  let r := checkNetwork config.network r
  let r := checkChainCount config.chains r
  match validateModeConstraints config.chains with
  | .error message => (r, some message)
  | .ok validation =>
    let r := checkModeValidation validation r
    match objectEntries config.chains with
    | .error message => (r, some message)
    | .ok entries =>
      match entries.foldlM (checkChain newURL) r with
      | .error message => (r, some message)
      | .ok r => (r, none)

/-- Source: `validateConfig`. -/
def validateConfig (newURL : String → Except String Unit) (file : ConfigFile) : Run :=
  match loadConfig file with
  | (none, printed) => ⟨printed ++ ["Error: " ++ CONFIG_FILE ++ " not found."], .exit 1, file⟩
  | (some config, printed) =>
    match validateLoaded newURL config printed with
    | (r, some message) => ⟨r.output, .uncaught message, file⟩
    | (r, none) =>
      if r.hasErrors then
        ⟨r.output ++ ["\n❌ Configuration validation failed!\n"], .exit 1, file⟩
      else
        ⟨r.output ++ ["\n✓ Configuration is valid!\n"], .returned, file⟩

/-! ## `src/index.js`: the `remove` command -/

/-- The statement `delete obj[key]` on a plain object. -/
def deleteProperty {α : Type} (entries : List (String × α)) (key : String) :
    List (String × α) :=
  entries.filter fun e => e.1 != key

/-- Source: `removeChain`; `writable` tells whether writing the file succeeds. -/
def removeChain (writable : Bool) (file : ConfigFile) (chainName : String) : Run :=
  match loadConfig file with
  | (none, printed) => ⟨printed ++ ["Error: " ++ CONFIG_FILE ++ " not found."], .exit 1, file⟩
  | (some config, printed) =>
    if !(chainName != "") then
      ⟨printed ++ ["Error: Chain name is required. Usage: heimdall remove <chain>"],
        .exit 1, file⟩
    else
      match config.chains with
      | none =>
        ⟨printed, .uncaught ("TypeError: Cannot read properties of undefined (reading \x27" ++
          chainName ++ "\x27)"), file⟩
      | some entries =>
        if !(getProperty entries chainName).truthy (fun _ => true) then
          ⟨printed ++ ["Chain " ++ chainName ++ " not found in configuration."], .exit 1, file⟩
        else
          let remaining := deleteProperty entries chainName
          if remaining.length < 2 then
            ⟨printed ++ ["Error: Cannot remove chain. At least 2 chains are required."],
              .exit 1, file⟩
          else
            match saveConfig writable file { config with chains := some remaining } with
            | (true, written, lines) =>
              ⟨printed ++ lines ++ ["✓ Removed " ++ chainName ++ " from configuration\n"],
                .returned, written⟩
            | (false, written, lines) => ⟨printed ++ lines, .exit 1, written⟩

/-! ## `src/config/constants.js` and `src/lib/utils.js`: default RPC endpoints -/

/-- Source: `DEFAULT_RPCS`. -/
def DEFAULT_RPCS : List (String × List (String × String)) :=
  [("ethereum",
      [("mainnet", "https://eth.llamarpc.com"), ("testnet", "https://rpc.sepolia.org"),
        ("devnet", "https://rpc.sepolia.org")]),
    ("arbitrum",
      [("mainnet", "https://arb1.arbitrum.io/rpc"),
        ("testnet", "https://sepolia-rollup.arbitrum.io/rpc"),
        ("devnet", "https://sepolia-rollup.arbitrum.io/rpc")]),
    ("optimism",
      [("mainnet", "https://mainnet.optimism.io"), ("testnet", "https://sepolia.optimism.io"),
        ("devnet", "https://sepolia.optimism.io")]),
    ("base",
      [("mainnet", "https://mainnet.base.org"), ("testnet", "https://sepolia.base.org"),
        ("devnet", "https://sepolia.base.org")]),
    ("solana",
      [("mainnet", "https://api.mainnet-beta.solana.com"),
        ("testnet", "https://api.testnet.solana.com"),
        ("devnet", "https://api.devnet.solana.com")])]

/-- Source: `getDefaultRpc`, the expression `DEFAULT_RPCS[chain]?.[network] || ""`.
For a chain of the table, a network that the entry inherits from
`Object.prototype` reads as a truthy value that is no string, kept as
`.inherited`.  For a chain name that `DEFAULT_RPCS` itself inherits, the
second read is made on a builtin, which has no property named after a
network, so the expression is `""`.  Every caller tests the chain against
`CHAINS` first. -/
def getDefaultRpc (chain : String) (network : Option String) : PropertyValue String :=
  match getProperty DEFAULT_RPCS chain with
  | .own perNetwork =>
    match getProperty perNetwork (display network) with
    | .own url => .own url
    | .inherited key => .inherited key
    | .undefined => .own ""
  | .inherited _ => .own ""
  | .undefined => .own ""

/-! ## Assignments and short-circuit operators -/

/-- The assignment `obj[key] = value` on a plain object: an own entry keeps
its place and takes the new value, a new key is appended. -/
def setProperty {α : Type} (entries : List (String × α)) (key : String) (value : α) :
    List (String × α) :=
  if entries.any (fun e => e.1 == key) then
    entries.map fun e => if e.1 == key then (key, value) else e
  else entries ++ [(key, value)]

/-- The expression `a || b` where `a` is a string or `undefined` and `b` a string. -/
def orString (a : Option String) (b : String) : String :=
  if truthyString a then display a else b

/-- The template `\${name}`: the placeholder stored in the `privateKey` field. -/
def placeholder (envVarName : String) : String := "$\x7b" ++ envVarName ++ "\x7d"

/-- The method `String.prototype.toUpperCase` on ASCII text.  The flows apply
it to chain names that were tested against `CHAINS` and to the two mode names. -/
def toUpperCase (s : String) : String := String.mk (s.toList.map Char.toUpper)

/-- The builtin `fs.existsSync(CONFIG_FILE)`. -/
def existsSync : ConfigFile → Bool
  | .missing => false
  | .unreadable _ => true
  | .document _ => true

/-! ## `src/index.js`: the non-interactive `init` flow -/

/-- The parsed command line handed to `nonInteractiveInit`: `option name` is
`argv[name]` for the per-chain string options, by their camel-case names. -/
structure InitArgv where
  env : Option String
  network : Option String
  chain : Option (List String)
  force : Bool
  option : String → Option String

/-- The variables of `nonInteractiveInit` that its loop updates. -/
structure InitProgress where
  chains : Chains
  envVarInstructions : List String
  deriving DecidableEq, Repr

/-- Source: the body of the `for` loop of `nonInteractiveInit`.  An error is
the lines printed before `process.exit` and the way the process ends. -/
def initChain (lib : AddressLibrary) (newURL : String → Except String Unit) (argv : InitArgv)
    (network : String) (p : InitProgress) (chain : String) :
    Except (List String × Status) InitProgress :=
  if !CHAINS.contains chain then
    .error (["Invalid chain: " ++ chain, "Valid options: " ++ ", ".intercalate CHAINS], .exit 1)
  else
    let rpc : PropertyValue String :=
      match argv.option (chain ++ "Rpc") with
      | some given => if given != "" then .own given else getDefaultRpc chain (some network)
      | none => getDefaultRpc chain (some network)
    let token := argv.option (chain ++ "Token")
    let keyEnvVar := argv.option (chain ++ "Key")
    let mode := orString (argv.option (chain ++ "Mode")) "burning"
    if !rpc.truthy (fun url => url != "") then
      .error (["Missing RPC endpoint for " ++ chain ++ ". Use --" ++ chain ++ "-rpc"], .exit 1)
    else
      match rpc with
      | .undefined =>
        .error (["Missing RPC endpoint for " ++ chain ++ ". Use --" ++ chain ++ "-rpc"], .exit 1)
      | .inherited _ =>
        .error (["Invalid RPC URL for " ++ chain ++ ": [object]"], .exit 1)
      | .own url =>
        match isValidUrl newURL url with
        | .error message => .error ([], .uncaught message)
        | .ok false => .error (["Invalid RPC URL for " ++ chain ++ ": " ++ url], .exit 1)
        | .ok true =>
          if !truthyString token then
            .error (["Missing token address for " ++ chain ++ ". Use --" ++ chain ++ "-token"],
              .exit 1)
          else if !truthyString keyEnvVar then
            .error (["Missing private key env var for " ++ chain ++ ". Use --" ++ chain ++
              "-key"], .exit 1)
          else if !MODES.contains mode then
            .error (["Invalid mode for " ++ chain ++ ": " ++ mode,
              "Valid options: " ++ ", ".intercalate MODES], .exit 1)
          else
            match (convertToWormholeFormat lib (display token) chain).result with
            | .error message =>
              .error (["Error converting " ++ chain ++ " address: " ++ message], .exit 1)
            | .ok wormholeAddress =>
              .ok
                { chains := setProperty p.chains chain
                    ⟨url, placeholder (display keyEnvVar), wormholeAddress, mode⟩
                  envVarInstructions := p.envVarInstructions ++ [display keyEnvVar] }

/-- Source: `nonInteractiveInit` after its loop: the mode check, the
overwrite guard and the write. -/
def finishInit (writable : Bool) (file : ConfigFile) (force : Bool) (network : String)
    (p : InitProgress) : Run :=
  match validateModeConstraints (some p.chains) with
  | .error message => ⟨[], .uncaught message, file⟩
  | .ok validation =>
    if !validation.valid then ⟨["❌ " ++ display validation.error], .exit 1, file⟩
    else
      let config : Config := ⟨some network, some p.chains⟩
      let notice : Option (List String) :=
        if force && existsSync file then some ["Overwriting existing " ++ CONFIG_FILE ++ "..."]
        else if existsSync file && !force then none
        else some []
      match notice with
      | none =>
        ⟨["Error: " ++ CONFIG_FILE ++ " already exists. Use --force to overwrite."], .exit 1,
          file⟩
      | some notice =>
        match saveConfig writable file config with
        | (true, written, lines) =>
          ⟨notice ++ lines ++ ["✓ Generated: " ++ CONFIG_FILE, "\n⚠️  SECURITY NOTICE ⚠️",
              "Make sure these environment variables are set:\n"] ++
            (p.envVarInstructions.map fun envVar =>
              "export " ++ envVar ++ "=\"your_private_key_here\"") ++
            ["\n✓ Configuration created successfully.\n"], .returned, written⟩
        | (false, written, lines) => ⟨notice ++ lines, .exit 1, written⟩

/-- Source: `nonInteractiveInit`. -/
def nonInteractiveInit (lib : AddressLibrary) (newURL : String → Except String Unit)
    (writable : Bool) (file : ConfigFile) (argv : InitArgv) : Run :=
  let network := orString argv.env (orString argv.network "testnet")
  if !NETWORKS.contains network then
    ⟨["Invalid network: " ++ network, "Valid options: " ++ ", ".intercalate NETWORKS],
      .exit 1, file⟩
  else
    match argv.chain with
    | none =>
      ⟨["Error: At least 2 chains must be specified using --chain flag"], .exit 1, file⟩
    | some selectedChains =>
      if selectedChains.length == 0 then
        ⟨["Error: At least 2 chains must be specified using --chain flag"], .exit 1, file⟩
      else if selectedChains.length < 2 then
        ⟨["Error: At least 2 chains are required for cross-chain deployment"], .exit 1, file⟩
      else
        match selectedChains.foldlM (initChain lib newURL argv network) ⟨[], []⟩ with
        | .error (lines, status) => ⟨lines, status, file⟩
        | .ok p => finishInit writable file argv.force network p

/-! ## `src/index.js`: the prompts of the interactive flows

`inquirer` is an external collaborator.  A prompt resolves only with an
answer its `validate` callback accepts: a list prompt with one of its choices,
a checkbox prompt with some of its choices in their order.  The flows below
take the answers as given and are `waiting` when a prompt cannot have resolved
with the answer supplied.  The value of `getDefaultRpc` is only handed to the
RPC prompt as its default, so it does not appear in the flows. -/

/-- Where a flow stands after a step: it goes on with a value, it has ended
(the lines printed and how), or a prompt is still waiting for an answer it
accepts. -/
inductive Step (α : Type) where
  | next (value : α)
  | stop (output : List String) (status : Status)
  | waiting
  deriving Repr

/-- A `for ... of` loop over chain names whose body may end the flow. -/
def forEachStep {σ : Type} (body : σ → String → Step σ) : List String → σ → Step σ
  | [], s => .next s
  | chain :: rest, s =>
    match body s chain with
    | .next s2 => forEachStep body rest s2
    | .stop output status => .stop output status
    | .waiting => .waiting

/-- Source: the `validate` callback of the RPC prompts. -/
def rpcInputAccepted (newURL : String → Except String Unit) (input : String) : Bool :=
  if !(input != "") then false
  else
    match isValidUrl newURL input with
    | .ok accepted => accepted
    | .error _ => false

/-- Source: the `validate` callback of the token-address prompts. -/
def tokenInputAccepted (chain input : String) : Bool :=
  if !(input != "") then false
  else if chain == "solana" then isValidSolanaAddress input
  else isValidEthereumAddress input

/-- Source: the `validate` callback of the private-key prompts. -/
def keyInputAccepted (chain input : String) : Bool :=
  if !(input != "") then false
  else isValidPrivateKey input chain

/-- Source: the `validate` callback of the chain checkbox. -/
def selectionAccepted (input : List String) : Bool := !(input.length < 2)

/-! ## `src/index.js`: the interactive `init` flow -/

/-- Source: the values of the choices of the network prompt. -/
def networkChoices : List String := ["testnet", "mainnet", "devnet"]

/-- What the operator enters for one chain, the private key apart. -/
structure ChainAnswers where
  rpc : String
  tokenAddress : String
  deriving DecidableEq, Repr

/-- The answers of the interactive `init` flow, the private keys apart. -/
structure InitAnswers where
  network : String
  selectedChains : List String
  lockingChain : Option String
  perChain : String → ChainAnswers
  confirm : Bool

/-- The variables of `interactiveInit` that its loop updates, and the lines
printed so far. -/
structure WizardState where
  chains : Chains
  envVars : List (String × String)
  output : List String
  deriving DecidableEq, Repr

/-- Source: the body of the `for` loop of `interactiveInit`; `privateKeys chain`
is the key typed for `chain`. -/
def configureChain (lib : AddressLibrary) (newURL : String → Except String Unit)
    (answers : InitAnswers) (privateKeys : String → String) (s : WizardState)
    (chain : String) : Step WizardState :=
  let mode := if some chain == answers.lockingChain then "locking" else "burning"
  let output := s.output ++
    ["\n═══ Configuring: " ++ toUpperCase chain ++ " (" ++ toUpperCase mode ++ " Mode) ═══\n"]
  let rpc := (answers.perChain chain).rpc
  if !rpcInputAccepted newURL rpc then .waiting
  else
    let tokenAddress := (answers.perChain chain).tokenAddress
    if !tokenInputAccepted chain tokenAddress then .waiting
    else
      match (convertToWormholeFormat lib tokenAddress chain).result with
      | .error message => .stop output (.uncaught message)
      | .ok wormholeAddress =>
        let output :=
          if chain != "solana" then
            output ++ ["✓ Converted to Wormhole format: " ++ wormholeAddress]
          else output
        let privateKey := privateKeys chain
        if !keyInputAccepted chain privateKey then .waiting
        else
          let envVarName := toUpperCase chain ++ "_PRIVATE_KEY"
          .next
            { chains := setProperty s.chains chain
                ⟨rpc, placeholder envVarName, wormholeAddress, mode⟩
              envVars := setProperty s.envVars envVarName privateKey
              output := output ++ ["✓ Will be stored as: " ++ placeholder envVarName] }

/-- Source: `interactiveInit` after its loop: the summary, the confirmation,
the mode check and the write. -/
def finishWizard (writable : Bool) (file : ConfigFile) (answers : InitAnswers)
    (s : WizardState) : Run :=
  let output := s.output ++
    ["\n═══ Configuration Summary ═══\n", "Network: " ++ answers.network, "Chains:"] ++
    s.chains.map fun e => "  • " ++ e.1 ++ " (" ++ toUpperCase e.2.mode ++ ")"
  if !answers.confirm then ⟨output ++ ["\nConfiguration cancelled."], .exit 0, file⟩
  else
    let config : Config := ⟨some answers.network, some s.chains⟩
    match validateModeConstraints (some s.chains) with
    | .error message => ⟨output, .uncaught message, file⟩
    | .ok validation =>
      if !validation.valid then
        ⟨output ++ ["\n❌ " ++ display validation.error], .exit 1, file⟩
      else
        match saveConfig writable file config with
        | (true, written, lines) =>
          ⟨output ++ lines ++ ["\n✓ Generated: " ++ CONFIG_FILE, "\n⚠️  SECURITY NOTICE ⚠️",
              "Private keys are NOT stored in the config file.",
              "Please export these environment variables:\n"] ++
            (s.envVars.map fun e => "export " ++ e.1 ++ "=\"" ++ e.2 ++ "\"") ++
            ["\n✓ Done! Your configuration is ready.\n"], .returned, written⟩
        | (false, written, lines) =>
          ⟨output ++ lines ++ ["\n❌ Failed to save configuration file."], .exit 1, written⟩

/-- Source: `interactiveInit`; `none` when a prompt cannot have resolved with
the answer supplied. -/
def interactiveInit (lib : AddressLibrary) (newURL : String → Except String Unit)
    (writable : Bool) (file : ConfigFile) (answers : InitAnswers)
    (privateKeys : String → String) : Option Run :=
  let output := ["\n Welcome to Heimdall deployment portal!\n",
    "This cli will provision your multichain deployment config for Wormhole.\n"]
  if !networkChoices.contains answers.network then none
  else if !(answers.selectedChains.isSublist CHAINS &&
      selectionAccepted answers.selectedChains) then none
  else if !(match answers.lockingChain with
      | some chain => answers.selectedChains.contains chain
      | none => true) then none
  else
    match forEachStep (configureChain lib newURL answers privateKeys) answers.selectedChains
        ⟨[], [], output⟩ with
    | .waiting => none
    | .stop printed status => some ⟨printed, status, file⟩
    | .next s => some (finishWizard writable file answers s)

/-! ## `src/index.js`: the `add` command -/

/-- The answers of the prompts of `addChain`, the private key apart. -/
structure AddAnswers where
  rpc : String
  tokenAddress : String
  mode : String
  deriving DecidableEq, Repr

/-- Source: `addChain` from its prompts on, for a loaded configuration with
the entries `entries` and a chain name that passed the guards. -/
def addPrompted (lib : AddressLibrary) (newURL : String → Except String Unit)
    (writable : Bool) (file : ConfigFile) (config : Config) (entries : Chains)
    (chainName : String) (answers : AddAnswers) (privateKey : String)
    (printed : List String) : Option Run :=
  let output := printed ++ ["\n═══ Adding: " ++ toUpperCase chainName ++ " ═══\n"]
  if !rpcInputAccepted newURL answers.rpc then none
  else if !tokenInputAccepted chainName answers.tokenAddress then none
  else if !keyInputAccepted chainName privateKey then none
  else if !MODES.contains answers.mode then none
  else
    match (convertToWormholeFormat lib answers.tokenAddress chainName).result with
    | .error message => some ⟨output, .uncaught message, file⟩
    | .ok wormholeAddress =>
      let envVarName := toUpperCase chainName ++ "_PRIVATE_KEY"
      let chains := setProperty entries chainName
        ⟨answers.rpc, placeholder envVarName, wormholeAddress, answers.mode⟩
      match validateModeConstraints (some chains) with
      | .error message => some ⟨output, .uncaught message, file⟩
      | .ok validation =>
        if !validation.valid then
          some ⟨output ++ ["\n❌ " ++ display validation.error, "Chain not added."], .exit 1,
            file⟩
        else
          match saveConfig writable file { config with chains := some chains } with
          | (true, written, lines) =>
            some ⟨output ++ lines ++ ["\n✓ Added " ++ chainName ++ " to configuration",
              "\nDon\x27t forget to set the environment variable:",
              "export " ++ envVarName ++ "=\"" ++ privateKey ++ "\"", ""], .returned, written⟩
          | (false, written, lines) => some ⟨output ++ lines, .exit 1, written⟩

/-- Source: `addChain`; `none` when a prompt cannot have resolved with the
answer supplied. -/
def addChain (lib : AddressLibrary) (newURL : String → Except String Unit) (writable : Bool)
    (file : ConfigFile) (chainName : String) (answers : AddAnswers) (privateKey : String) :
    Option Run :=
  match loadConfig file with
  | (none, printed) =>
    some ⟨printed ++ ["Error: " ++ CONFIG_FILE ++ " not found. Run \x27heimdall init\x27 first."],
      .exit 1, file⟩
  | (some config, printed) =>
    if !(chainName != "") then
      some ⟨printed ++ ["Error: Chain name is required. Usage: heimdall add <chain>"],
        .exit 1, file⟩
    else if !CHAINS.contains chainName then
      some ⟨printed ++ ["Invalid chain: " ++ chainName,
        "Valid options: " ++ ", ".intercalate CHAINS], .exit 1, file⟩
    else
      match config.chains with
      | none =>
        some ⟨printed, .uncaught ("TypeError: Cannot read properties of undefined (reading \x27"
          ++ chainName ++ "\x27)"), file⟩
      | some entries =>
        if (getProperty entries chainName).truthy (fun _ => true) then
          some ⟨printed ++ ["Chain " ++ chainName ++ " already exists in configuration."],
            .exit 1, file⟩
        else
          addPrompted lib newURL writable file config entries chainName answers privateKey
            printed

/-! ## Reference predicates used in the statements -/

/-- The hexadecimal digits, in both letter cases. -/
def hexAlphabet : List Char := "0123456789abcdefABCDEF".toList

/-- The Base58 alphabet: the digits `1`-`9` and the ASCII letters except
`O`, `I` and `l`. -/
def base58Alphabet : List Char :=
  "123456789ABCDEFGHJKLMNPQRSTUVWXYZabcdefghijkmnopqrstuvwxyz".toList

/-- Specification wording: the key with an optional leading `0x` removed, and
only a leading one. -/
def stripLeading0x (key : String) : List Char :=
  match key.toList with
  | '0' :: 'x' :: rest => rest
  | l => l

/-- Specification wording of the EVM private-key rule: the stripped key is
exactly 64 hexadecimal characters. -/
def specValidEvmPrivateKey (key : String) : Bool :=
  (stripLeading0x key).length == 64 && (stripLeading0x key).all fun c => hexAlphabet.contains c

/-- Specification wording of the per-chain invariants of a configuration:
a supported chain name, an RPC accepted by `isValidUrl`, a non-empty token
address and one of the two modes. -/
def chainEntryValid (newURL : String → Except String Unit) (entry : String × ChainConfig) :
    Prop :=
  entry.1 ∈ CHAINS ∧ isValidUrl newURL entry.2.rpc = .ok true ∧ entry.2.tokenAddress ≠ "" ∧
    (entry.2.mode = "locking" ∨ entry.2.mode = "burning")

/-- The text in front of the chain names in the mode-constraint error. -/
def lockingRuleText : String := "Only ONE chain can use LOCKING mode. Found: "

/-- The number of entries in locking mode. -/
def lockingCount (chains : Chains) : Nat :=
  chains.countP fun e => decide (e.2.mode = "locking")

/-- The names of the entries in locking mode, in iteration order. -/
def lockingNames (chains : Chains) : List String :=
  (chains.filter fun e => decide (e.2.mode = "locking")).map Prod.fst

/-- The command line `init --chain ethereum --chain ethereum` with the token
address and the key variable of `ethereum`. -/
def duplicateChainArgv : InitArgv :=
  { env := none
    network := none
    chain := some ["ethereum", "ethereum"]
    force := false
    option := fun name =>
      if name = "ethereumToken" then some "0x0123456789abcdefABCDEF0123456789abcdefAB"
      else if name = "ethereumKey" then some "ETH_KEY"
      else none }

/-- A run persists only configurations with at most one locking chain: when
it returns, the file holds a document on which `validateModeConstraints` is
valid; when it ends otherwise, the file is as it was before. -/
def writesValidModes (file : ConfigFile) (run : Run) : Prop :=
  (run.status = .returned →
    ∃ network chains, run.file = .document ⟨network, some chains⟩ ∧ lockingCount chains ≤ 1 ∧
      validateModeConstraints (some chains) = .ok ⟨true, none⟩) ∧
  (run.status ≠ .returned → run.file = file)

/-- Every entry stores, as its private key, the placeholder built from its
own chain name in upper case. -/
def placeholderOnly (chains : Chains) : Prop :=
  ∀ e ∈ chains, e.2.privateKey = placeholder (toUpperCase e.1 ++ "_PRIVATE_KEY")

/-- Two steps of the wizard show the same, the typed keys apart: both go on
with the same chains and output, or both end in the same way; a step that is
still waiting agrees with any. -/
def stepsAgree : Step WizardState → Step WizardState → Prop
  | .next a, .next b => a.chains = b.chains ∧ a.output = b.output
  | .stop output1 status1, .stop output2 status2 => output1 = output2 ∧ status1 = status2
  | .waiting, _ => True
  | _, .waiting => True
  | _, _ => False

/-- Answers of the wizard used as an example: `testnet`, the chains
`ethereum` (locking) and `solana`, confirmed. -/
def exampleAnswers : InitAnswers :=
  { network := "testnet"
    selectedChains := ["ethereum", "solana"]
    lockingChain := some "ethereum"
    perChain := fun chain =>
      if chain = "solana" then
        ⟨"https://api.testnet.solana.com", "11111111111111111111111111111111"⟩
      else ⟨"https://rpc.sepolia.org", "0x0123456789abcdefABCDEF0123456789abcdefAB"⟩
    confirm := true }

/-- A first choice of private keys, accepted by the prompts. -/
def exampleKeysA (chain : String) : String :=
  if chain = "solana" then "aaaaaaaaaaaaaaaaaaaaaaaaa"
  else "0xaaaaaaaaaaaaaaaaaaaaaaaaaaaaaaaaaaaaaaaaaaaaaaaaaaaaaaaaaaaaaaaa"

/-- A second choice of private keys, accepted by the prompts. -/
def exampleKeysB (chain : String) : String :=
  if chain = "solana" then "bbbbbbbbbbbbbbbbbbbbbbbbbbbbbb"
  else "bbbbbbbbbbbbbbbbbbbbbbbbbbbbbbbbbbbbbbbbbbbbbbbbbbbbbbbbbbbbbbbb"

/-- A stand-in for the URL constructor that accepts every string. -/
def exampleNewURL : String → Except String Unit := fun _ => .ok ()

/-- A stand-in for the addressing library that returns a fixed string. -/
def exampleLibrary : AddressLibrary := fun _ _ => .ok "universal"

/-- A configuration file as the non-interactive flow writes it when the key
variables are named `ETH_KEY` and `BASE_KEY`. -/
def exampleFile : ConfigFile :=
  .document ⟨some "testnet",
    some [("ethereum", ⟨"https://rpc.sepolia.org", "$\x7bETH_KEY\x7d", "universal", "locking"⟩),
      ("base", ⟨"https://sepolia.base.org", "$\x7bBASE_KEY\x7d", "universal", "burning"⟩)]⟩

/-- Answers of the prompts of `add` used as an example. -/
def exampleAddAnswers : AddAnswers :=
  ⟨"https://api.testnet.solana.com", "11111111111111111111111111111111", "burning"⟩

/-! ## The regular-expression fragment: what it accepts -/

/-- Characterisation of a bounded repetition followed by a continuation. -/
theorem matchRep_iff (cls : CharClass) (k : List Char → Bool) (hi : Nat) :
    ∀ (lo : Nat) (s : List Char), matchRep cls k lo hi s = true ↔
      ∃ n, lo ≤ n ∧ n ≤ hi ∧ n ≤ s.length ∧ (∀ c ∈ s.take n, cls.test c = true) ∧
        k (s.drop n) = true := by
  induction hi with
  | zero =>
    intro lo s
    simp only [matchRep, Bool.and_eq_true, beq_iff_eq]
    constructor
    · rintro ⟨h0, hk⟩
      exact ⟨0, by omega, le_refl _, Nat.zero_le _, by simp, by simpa using hk⟩
    · rintro ⟨n, h1, h2, -, -, hk⟩
      have hn : n = 0 := by omega
      subst hn
      exact ⟨by omega, by simpa using hk⟩
  | succ hi ih =>
    intro lo s
    cases s with
    | nil =>
      simp only [matchRep, Bool.false_or, Bool.and_eq_true, beq_iff_eq]
      constructor
      · rintro ⟨h0, hk⟩
        exact ⟨0, by omega, Nat.zero_le _, Nat.zero_le _, by simp, by simpa using hk⟩
      · rintro ⟨n, h1, -, h3, -, hk⟩
        have hn : n = 0 := by simpa using h3
        subst hn
        exact ⟨by omega, by simpa using hk⟩
    | cons c t =>
      simp only [matchRep, Bool.or_eq_true, Bool.and_eq_true, beq_iff_eq, ih]
      constructor
      · rintro (⟨hc, n, h1, h2, h3, h4, hk⟩ | ⟨h0, hk⟩)
        · refine ⟨n + 1, by omega, by omega, by simpa using h3, ?_, by simpa using hk⟩
          intro d hd
          simp only [List.take_succ_cons, List.mem_cons] at hd
          rcases hd with rfl | hd
          · exact hc
          · exact h4 d hd
        · exact ⟨0, by omega, Nat.zero_le _, Nat.zero_le _, by simp, by simpa using hk⟩
      · rintro ⟨n, h1, h2, h3, h4, hk⟩
        cases n with
        | zero => exact Or.inr ⟨by omega, by simpa using hk⟩
        | succ m =>
          refine Or.inl ⟨h4 c (by simp), m, by omega, by omega, by simpa using h3, ?_,
            by simpa using hk⟩
          intro d hd
          exact h4 d (by simp [hd])

/-- A single class repeated between `lo` and `hi` times, anchored at both
ends, accepts exactly the inputs of such a length made of class members. -/
theorem matchItems_single (cls : CharClass) (lo hi : Nat) (s : List Char) :
    matchItems [⟨cls, lo, hi⟩] s = true ↔
      lo ≤ s.length ∧ s.length ≤ hi ∧ ∀ c ∈ s, cls.test c = true := by
  simp only [matchItems, matchRep_iff]
  constructor
  · rintro ⟨n, h1, h2, h3, h4, hk⟩
    have hd : s.drop n = [] := by simpa using hk
    have hn : s.length ≤ n := by simpa using hd
    have : n = s.length := by omega
    subst this
    exact ⟨h1, h2, by simpa using h4⟩
  · rintro ⟨h1, h2, h3⟩
    exact ⟨s.length, h1, h2, le_refl _, by simpa using h3, by simp⟩

/-- A literal item in front of a pattern consumes exactly that character. -/
theorem matchItems_lit (a : Char) (rest : List Item) (s : List Char) :
    matchItems (Item.lit a :: rest) s = true ↔
      ∃ t, s = a :: t ∧ matchItems rest t = true := by
  simp only [matchItems, Item.lit, matchRep_iff]
  constructor
  · rintro ⟨n, h1, h2, h3, h4, hk⟩
    have hn : n = 1 := by omega
    subst hn
    cases s with
    | nil => simp at h3
    | cons c t =>
      have hc := h4 c (by simp)
      simp only [CharClass.test, List.any_cons, List.any_nil, Bool.or_false, Bool.and_eq_true,
        decide_eq_true_eq] at hc
      have hca : c = a := by
        apply Char.ext
        apply UInt32.ext  
        have := hc.1
        have := hc.2
        simp only [Char.toNat] at *
        omega
      subst hca
      exact ⟨t, rfl, by simpa using hk⟩
  · rintro ⟨t, rfl, hk⟩
    refine ⟨1, le_refl _, le_refl _, by simp, ?_, by simpa using hk⟩
    intro d hd
    have : d = a := by simpa using hd
    subst this
    simp [CharClass.test]

/-- The class `[a-fA-F0-9]` holds exactly the hexadecimal digits. -/
theorem hexClass_test_iff (c : Char) : hexClass.test c = true ↔ c ∈ hexAlphabet := by
  constructor
  · intro h
    have hc : c = Char.ofNat c.toNat := (Char.ofNat_toNat c).symm
    simp only [hexClass, CharClass.test, List.any_cons, List.any_nil, Bool.or_false,
      Bool.or_eq_true, Bool.and_eq_true, decide_eq_true_eq] at h
    generalize c.toNat = n at h hc
    subst hc
    have e1 : 'a'.toNat = 97 := rfl
    have e2 : 'f'.toNat = 102 := rfl
    have e3 : 'A'.toNat = 65 := rfl
    have e4 : 'F'.toNat = 70 := rfl
    have e5 : '0'.toNat = 48 := rfl
    have e6 : '9'.toNat = 57 := rfl
    rw [e1, e2, e3, e4, e5, e6] at h
    rcases h with ⟨h1, h2⟩ | ⟨h1, h2⟩ | ⟨h1, h2⟩ <;> interval_cases n <;> decide
  · revert c
    decide

set_option maxRecDepth 100000 in
/-- The class `[1-9A-HJ-NP-Za-km-z]` holds exactly the Base58 alphabet. -/
theorem base58Class_test_iff (c : Char) : base58Class.test c = true ↔ c ∈ base58Alphabet := by
  constructor
  · intro h
    have hc : c = Char.ofNat c.toNat := (Char.ofNat_toNat c).symm
    simp only [base58Class, CharClass.test, List.any_cons, List.any_nil, Bool.or_false,
      Bool.or_eq_true, Bool.and_eq_true, decide_eq_true_eq] at h
    generalize c.toNat = n at h hc
    subst hc
    have e1 : '1'.toNat = 49 := rfl
    have e2 : '9'.toNat = 57 := rfl
    have e3 : 'A'.toNat = 65 := rfl
    have e4 : 'H'.toNat = 72 := rfl
    have e5 : 'J'.toNat = 74 := rfl
    have e6 : 'N'.toNat = 78 := rfl
    have e7 : 'P'.toNat = 80 := rfl
    have e8 : 'Z'.toNat = 90 := rfl
    have e9 : 'a'.toNat = 97 := rfl
    have e10 : 'k'.toNat = 107 := rfl
    have e11 : 'm'.toNat = 109 := rfl
    have e12 : 'z'.toNat = 122 := rfl
    rw [e1, e2, e3, e4, e5, e6, e7, e8, e9, e10, e11, e12] at h
    rcases h with ⟨h1, h2⟩ | ⟨h1, h2⟩ | ⟨h1, h2⟩ | ⟨h1, h2⟩ | ⟨h1, h2⟩ | ⟨h1, h2⟩ <;>
      interval_cases n <;> decide
  · revert c
    decide

/-! ## UTF-16 length -/

/-- Characters below U+10000 count one code unit each. -/
theorem utf16_sum_of_small (l : List Char) (h : ∀ c ∈ l, c.toNat < 65536) :
    (l.map fun c => if c.toNat < 65536 then 1 else 2).sum = l.length := by
  induction l with
  | nil => rfl
  | cons a t ih =>
    have ha := h a (by simp)
    have ht := ih (fun c hc => h c (by simp [hc]))
    simp only [List.map_cons, List.sum_cons, List.length_cons, if_pos ha, ht]
    omega

/-- On such a string the UTF-16 length is the number of characters. -/
theorem utf16Length_of_small (s : String) (h : ∀ c ∈ s.toList, c.toNat < 65536) :
    utf16Length s = s.length := by
  simpa [utf16Length] using utf16_sum_of_small s.toList h

/-- The UTF-16 length is at least the number of characters. -/
theorem utf16_sum_ge (l : List Char) :
    l.length ≤ (l.map fun c => if c.toNat < 65536 then 1 else 2).sum := by
  induction l with
  | nil => simp
  | cons a t ih =>
    simp only [List.map_cons, List.sum_cons, List.length_cons]
    split <;> omega

/-! ## The mode-constraint checker -/

/-- The value of `validateModeConstraints` on a mapping. -/
theorem validateModeConstraints_some (chains : Chains) :
    validateModeConstraints (some chains) =
      .ok (if 1 < lockingCount chains then
          ⟨false, some (lockingRuleText ++ ", ".intercalate (lockingNames chains))⟩
        else ⟨true, none⟩) := by
  have hf : (chains.filter fun e => e.2.mode == "locking") =
      chains.filter fun e => decide (e.2.mode = "locking") := by
    congr 1
  simp only [validateModeConstraints, objectEntries, lockingCount, lockingNames,
    lockingRuleText, List.countP_eq_length_filter, hf, bind, Except.bind, pure, Except.pure]
  split <;> rfl

/-- C1: for every mapping of chain configurations, `validateModeConstraints`
returns a result, and that result is valid exactly when the number of
locking-mode entries is 0 or 1; with two or more it is invalid. -/
theorem validateModeConstraints_valid_iff (chains : Chains) :
    ∃ r, validateModeConstraints (some chains) = .ok r ∧
      (r.valid = true ↔ lockingCount chains = 0 ∨ lockingCount chains = 1) ∧
      (2 ≤ lockingCount chains → r.valid = false) := by
  refine ⟨_, validateModeConstraints_some chains, ?_, ?_⟩
  · split
    · simp; omega
    · simp; omega
  · intro h
    rw [if_pos (by omega)]

/-- A name is among the locking names exactly when it has a locking entry. -/
theorem mem_lockingNames (chains : Chains) (n : String) :
    n ∈ lockingNames chains ↔ ∃ cfg, (n, cfg) ∈ chains ∧ cfg.mode = "locking" := by
  simp [lockingNames]

/-- The locking names come in the iteration order of the mapping. -/
theorem lockingNames_sublist (chains : Chains) :
    (lockingNames chains).Sublist (chains.map Prod.fst) :=
  (List.filter_sublist chains).map Prod.fst

/-- C2: with two or more locking-mode entries the result is invalid and its
error string is the rule text followed by the names of exactly the
locking-mode chains, in iteration order, joined by a comma and a blank; for
two locking chains `a` and `b` it ends in `a, b`. -/
theorem validateModeConstraints_error_names (chains : Chains)
    (h : 2 ≤ lockingCount chains) :
    validateModeConstraints (some chains) =
        .ok ⟨false, some (lockingRuleText ++ ", ".intercalate (lockingNames chains))⟩ ∧
      (∀ n, n ∈ lockingNames chains ↔ ∃ cfg, (n, cfg) ∈ chains ∧ cfg.mode = "locking") ∧
      (lockingNames chains).Sublist (chains.map Prod.fst) ∧
      (∀ a b ca cb, chains = [(a, ca), (b, cb)] →
        validateModeConstraints (some chains) =
          .ok ⟨false, some (lockingRuleText ++ a ++ ", " ++ b)⟩) := by
  refine ⟨?_, mem_lockingNames chains, lockingNames_sublist chains, ?_⟩
  · rw [validateModeConstraints_some, if_pos (by omega)]
  · intro a b ca cb hab
    subst hab
    have ha : ca.mode = "locking" := by
      by_contra hne
      simp [lockingCount, List.countP_cons, hne] at h
      split at h <;> omega
    have hb : cb.mode = "locking" := by
      by_contra hne
      simp [lockingCount, List.countP_cons, hne] at h
      split at h <;> omega
    rw [validateModeConstraints_some, if_pos (by omega)]
    simp [lockingNames, ha, hb, String.intercalate, String.intercalate.go, String.append_assoc]

/-- Two locking chains around a burning one: only the two are listed. -/
theorem validateModeConstraints_error_names_witness :
    2 ≤ lockingCount [("A", ⟨"http://a", "$A", "0xa", "locking"⟩),
        ("C", ⟨"http://c", "$C", "0xc", "burning"⟩),
        ("B", ⟨"http://b", "$B", "0xb", "locking"⟩)] ∧
      validateModeConstraints (some [("A", ⟨"http://a", "$A", "0xa", "locking"⟩),
        ("C", ⟨"http://c", "$C", "0xc", "burning"⟩),
        ("B", ⟨"http://b", "$B", "0xb", "locking"⟩)]) =
      .ok ⟨false, some "Only ONE chain can use LOCKING mode. Found: A, B"⟩ := by
  refine ⟨by decide, ?_⟩
  have h := (validateModeConstraints_error_names
    [("A", ⟨"http://a", "$A", "0xa", "locking"⟩),
        ("C", ⟨"http://c", "$C", "0xc", "burning"⟩),
        ("B", ⟨"http://b", "$B", "0xb", "locking"⟩)] (by decide)).1
  rw [h]
  rfl

/-! ## The validators -/

/-- What the Ethereum pattern accepts, on the list of characters. -/
theorem isValidEthereumAddress_iff_list (s : String) :
    isValidEthereumAddress s = true ↔
      ∃ body : List Char, s.toList = '0' :: 'x' :: body ∧ body.length = 40 ∧
        ∀ c ∈ body, c ∈ hexAlphabet := by
  simp only [isValidEthereumAddress, regexTest, ethereumAddressRegex, matchItems_lit,
    matchItems_single, hexClass_test_iff]
  constructor
  · rintro ⟨t, ht, u, hu, h1, h2, h3⟩
    exact ⟨u, by rw [ht, hu], by omega, h3⟩
  · rintro ⟨body, hs, hl, hc⟩
    exact ⟨'x' :: body, hs, body, rfl, by omega, by omega, hc⟩

/-- Hexadecimal digits are single UTF-16 code units. -/
theorem hexAlphabet_small : ∀ c ∈ hexAlphabet, c.toNat < 65536 := by decide

set_option maxRecDepth 100000 in
/-- Base58 characters are single UTF-16 code units. -/
theorem base58Alphabet_small : ∀ c ∈ base58Alphabet, c.toNat < 65536 := by decide

/-- C4: `isValidEthereumAddress` accepts exactly the strings made of `0x`
followed by 40 hexadecimal digits of either case; an accepted string has
length 42 and stops being accepted when anything (a newline, say) is put
after it or in front of it. -/
theorem isValidEthereumAddress_iff (s : String) :
    (isValidEthereumAddress s = true ↔
      ∃ body : List Char, s = "0x" ++ String.mk body ∧ body.length = 40 ∧
        ∀ c ∈ body, c ∈ hexAlphabet) ∧
    (isValidEthereumAddress s = true →
      utf16Length s = 42 ∧ s.length = 42 ∧ isValidEthereumAddress (s ++ "\n") = false ∧
        ∀ t : String, t ≠ "" →
          isValidEthereumAddress (s ++ t) = false ∧ isValidEthereumAddress (t ++ s) = false) := by
  have hlen : ∀ u : String, isValidEthereumAddress u = true → u.length = 42 := by
    intro u hu
    obtain ⟨body, hs, hl, -⟩ := (isValidEthereumAddress_iff_list u).1 hu
    have : u.length = u.toList.length := rfl
    rw [this, hs]
    simp [hl]
  have hrej : ∀ u : String, u.length ≠ 42 → isValidEthereumAddress u = false := by
    intro u hu
    cases h : isValidEthereumAddress u with
    | false => rfl
    | true => exact absurd (hlen u h) hu
  have hpos : ∀ t : String, t ≠ "" → 0 < t.length := by
    intro t ht
    rcases t with ⟨l⟩
    cases l with
    | nil => exact absurd rfl ht
    | cons a l => simp [String.length]
  constructor
  · rw [isValidEthereumAddress_iff_list]
    constructor
    · rintro ⟨body, hs, hl, hc⟩
      refine ⟨body, ?_, hl, hc⟩
      apply String.ext
      rw [String.data_append]
      exact hs
    · rintro ⟨body, hs, hl, hc⟩
      refine ⟨body, ?_, hl, hc⟩
      rw [hs]
      rfl
  · intro h
    have h42 := hlen s h
    obtain ⟨body, hs, hl, hc⟩ := (isValidEthereumAddress_iff_list s).1 h
    refine ⟨?_, h42, ?_, ?_⟩
    · rw [utf16Length_of_small s, h42]
      intro c hcs
      rw [hs] at hcs
      simp only [List.mem_cons] at hcs
      rcases hcs with rfl | rfl | hcs
      · decide
      · decide
      · exact hexAlphabet_small c (hc c hcs)
    · apply hrej
      rw [String.length_append, h42]
      decide
    · intro t ht
      have := hpos t ht
      constructor <;> apply hrej <;> rw [String.length_append, h42] <;> omega

/-- C5: `isValidSolanaAddress` accepts exactly the strings of length 32 to 44
over the Base58 alphabet; a string holding `0`, `O`, `I` or `l` is rejected,
and so is a string shorter than 32 or longer than 44. -/
theorem isValidSolanaAddress_iff (s : String) :
    (isValidSolanaAddress s = true ↔
      32 ≤ utf16Length s ∧ utf16Length s ≤ 44 ∧ ∀ c ∈ s.toList, c ∈ base58Alphabet) ∧
    (('0' ∈ s.toList ∨ 'O' ∈ s.toList ∨ 'I' ∈ s.toList ∨ 'l' ∈ s.toList) →
      isValidSolanaAddress s = false) ∧
    ((utf16Length s < 32 ∨ 44 < utf16Length s) → isValidSolanaAddress s = false) := by
  have key : isValidSolanaAddress s = true ↔
      32 ≤ utf16Length s ∧ utf16Length s ≤ 44 ∧ ∀ c ∈ s.toList, c ∈ base58Alphabet := by
    simp only [isValidSolanaAddress, regexTest, solanaAddressRegex, matchItems_single,
      base58Class_test_iff]
    constructor
    · rintro ⟨h1, h2, h3⟩
      have hu : utf16Length s = s.length :=
        utf16Length_of_small s fun c hc => base58Alphabet_small c (h3 c hc)
      have : s.length = s.toList.length := rfl
      exact ⟨by omega, by omega, h3⟩
    · rintro ⟨h1, h2, h3⟩
      have hu : utf16Length s = s.length :=
        utf16Length_of_small s fun c hc => base58Alphabet_small c (h3 c hc)
      have : s.length = s.toList.length := rfl
      exact ⟨by omega, by omega, h3⟩
  refine ⟨key, ?_, ?_⟩
  · intro h
    cases hv : isValidSolanaAddress s with
    | false => rfl
    | true =>
      have h3 := (key.1 hv).2.2
      rcases h with h | h | h | h
      · exact absurd (h3 _ h) (by decide)
      · exact absurd (h3 _ h) (by decide)
      · exact absurd (h3 _ h) (by decide)
      · exact absurd (h3 _ h) (by decide)
  · intro h
    cases hv : isValidSolanaAddress s with
    | false => rfl
    | true =>
      have h1 := (key.1 hv).1
      have h2 := (key.1 hv).2.1
      omega

set_option maxRecDepth 100000 in
/-- C3: `isValidPrivateKey` removes the first `0x` wherever it stands, so the
66-character key `a0x` followed by 63 `a` is accepted for an EVM chain
although, with no leading `0x` to strip, it is not 64 hexadecimal characters;
the two scenarios of the claim do hold. -/
theorem isValidPrivateKey_inner_0x :
    isValidPrivateKey "a0xaaaaaaaaaaaaaaaaaaaaaaaaaaaaaaaaaaaaaaaaaaaaaaaaaaaaaaaaaaaaaaa"
        "ethereum" = true ∧
      specValidEvmPrivateKey
        "a0xaaaaaaaaaaaaaaaaaaaaaaaaaaaaaaaaaaaaaaaaaaaaaaaaaaaaaaaaaaaaaaa" = false ∧
      "ethereum" ≠ "solana" ∧
      isValidPrivateKey "0xaaaaaaaaaaaaaaaaaaaaaaaaaaaaaaaaaaaaaaaaaaaaaaaaaaaaaaaaaaaaaaaa"
        "ethereum" = true ∧
      isValidPrivateKey "abc" "ethereum" = false := by
  decide

/-! ## The address canonicaliser -/

/-- An error of the format check leaves `convertToWormholeFormat` behind the
conversion wrapper, with no call to the library. -/
theorem convertToWormholeFormat_of_format_error (lib : AddressLibrary) (address chain : String)
    (message : String) (h : checkAddressFormat address chain = .error message) :
    (convertToWormholeFormat lib address chain).result =
        .error (conversionFailure chain message) ∧
      (convertToWormholeFormat lib address chain).libraryCalls = [] := by
  simp [convertToWormholeFormat, convertBody, h]

/-- A name that is neither a supported chain nor inherited from
`Object.prototype` reads as `undefined` in `CHAIN_NAME_MAP`. -/
theorem getProperty_CHAIN_NAME_MAP_undefined (chain : String) (hc : chain ∉ CHAINS)
    (hp : chain ∉ objectPrototypeKeys) : getProperty CHAIN_NAME_MAP chain = .undefined := by
  simp only [CHAINS, List.mem_cons, List.mem_singleton, List.not_mem_nil, or_false,
    not_or] at hc
  obtain ⟨h1, h2, h3, h4, h5⟩ := hc
  simp [getProperty, CHAIN_NAME_MAP, List.find?, hp, beq_eq_false_iff_ne.2 (Ne.symm h1),
    beq_eq_false_iff_ne.2 (Ne.symm h2), beq_eq_false_iff_ne.2 (Ne.symm h3),
    beq_eq_false_iff_ne.2 (Ne.symm h4), beq_eq_false_iff_ne.2 (Ne.symm h5)]

/-- C6 (as amended): for a chain that `CHAIN_NAME_MAP` does not know (none
of the five supported chains, nor a name inherited from `Object.prototype`)
the conversion fails for every address without calling the library; the error
is the wrapped `Unsupported chain` message when the address has the Ethereum
format, and the wrapped invalid-Ethereum-address message otherwise, since the
address is checked before the chain is looked up. -/
theorem convertToWormholeFormat_unsupported (lib : AddressLibrary) (address chain : String)
    (hc : chain ∉ CHAINS) (hp : chain ∉ objectPrototypeKeys) :
    (convertToWormholeFormat lib address chain).libraryCalls = [] ∧
      (∃ message, (convertToWormholeFormat lib address chain).result = .error message) ∧
      (isValidEthereumAddress address = true →
        (convertToWormholeFormat lib address chain).result =
          .error (conversionFailure chain ("Unsupported chain: " ++ chain))) ∧
      (isValidEthereumAddress address = false →
        (convertToWormholeFormat lib address chain).result =
          .error (conversionFailure chain ("Invalid Ethereum address format: " ++ address))) := by
  have hs : chain ≠ "solana" := by
    intro h
    exact hc (by simp [h, CHAINS])
  have hg := getProperty_CHAIN_NAME_MAP_undefined chain hc hp
  cases hv : isValidEthereumAddress address with
  | true =>
    have : (convertToWormholeFormat lib address chain) =
        ⟨.error (conversionFailure chain ("Unsupported chain: " ++ chain)), []⟩ := by
      simp [convertToWormholeFormat, convertBody, checkAddressFormat, hs, hv, hg,
        PropertyValue.truthy, pure, Except.pure]
    rw [this]
    exact ⟨rfl, ⟨_, rfl⟩, fun _ => rfl, fun h => by simp at h⟩
  | false =>
    have hf : checkAddressFormat address chain =
        .error ("Invalid Ethereum address format: " ++ address) := by
      simp [checkAddressFormat, hs, hv]
      rfl
    obtain ⟨h1, h2⟩ := convertToWormholeFormat_of_format_error lib address chain _ hf
    exact ⟨h2, ⟨_, h1⟩, fun h => by simp at h, fun _ => h1⟩

set_option maxRecDepth 100000 in
/-- The unsupported chain `polygon`: the address `abc` fails the format
check, a well-formed address reaches the chain lookup. -/
theorem convertToWormholeFormat_unsupported_witness :
    "polygon" ∉ CHAINS ∧ "polygon" ∉ objectPrototypeKeys ∧
      (convertToWormholeFormat (fun _ _ => .ok "universal") "abc" "polygon").libraryCalls = [] ∧
      (convertToWormholeFormat (fun _ _ => .ok "universal") "abc" "polygon").result =
        .error (conversionFailure "polygon" ("Invalid Ethereum address format: " ++ "abc")) ∧
      (convertToWormholeFormat (fun _ _ => .ok "universal")
          "0x0123456789abcdefABCDEF0123456789abcdefAB" "polygon").result =
        .error (conversionFailure "polygon" ("Unsupported chain: " ++ "polygon")) :=
  ⟨by decide, by decide,
    (convertToWormholeFormat_unsupported (fun _ _ => .ok "universal") "abc" "polygon"
      (by decide) (by decide)).1,
    (convertToWormholeFormat_unsupported (fun _ _ => .ok "universal") "abc" "polygon"
      (by decide) (by decide)).2.2.2 (by decide),
    (convertToWormholeFormat_unsupported (fun _ _ => .ok "universal")
      "0x0123456789abcdefABCDEF0123456789abcdefAB" "polygon"
      (by decide) (by decide)).2.2.1 (by decide)⟩

set_option maxRecDepth 100000 in
/-- C6 (as stated) fails: for the unsupported chain `polygon` and the address
`abc` the error is the invalid-address one, not `Unsupported chain`; and for
`constructor`, which `CHAIN_NAME_MAP` inherits from `Object.prototype`, a
well-formed address reaches the library, whose value is returned. -/
theorem convertToWormholeFormat_unsupported_counterexample :
    ("polygon" ∉ CHAINS ∧
      ∀ lib : AddressLibrary, (convertToWormholeFormat lib "abc" "polygon").result =
        .error (conversionFailure "polygon" "Invalid Ethereum address format: abc")) ∧
    ("constructor" ∉ CHAINS ∧
      (∀ lib : AddressLibrary,
        (convertToWormholeFormat lib "0x0123456789abcdefABCDEF0123456789abcdefAB"
            "constructor").libraryCalls =
          [(.inherited "constructor", "0x0123456789abcdefABCDEF0123456789abcdefAB")]) ∧
        (convertToWormholeFormat (fun _ _ => .ok "universal")
            "0x0123456789abcdefABCDEF0123456789abcdefAB" "constructor").result =
          .ok "universal") := by
  have hv : isValidEthereumAddress "0x0123456789abcdefABCDEF0123456789abcdefAB" = true := by
    decide
  have h : checkAddressFormat "0x0123456789abcdefABCDEF0123456789abcdefAB" "constructor" =
      .ok () := by
    simp [checkAddressFormat, hv]
    rfl
  have hg : getProperty CHAIN_NAME_MAP "constructor" = .inherited "constructor" := by decide
  refine ⟨⟨by decide, fun lib => ?_⟩, by decide, fun lib => ?_, ?_⟩
  · rfl
  · simp only [convertToWormholeFormat, convertBody, h, hg, PropertyValue.truthy]
    cases lib (.inherited "constructor") "0x0123456789abcdefABCDEF0123456789abcdefAB" <;> rfl
  · simp only [convertToWormholeFormat, convertBody, h, hg, PropertyValue.truthy]
    rfl

/-- The text of the wrapper that the `catch` clause of
`convertToWormholeFormat` puts in front of an error message. -/
theorem conversionFailure_eq (chain message : String) :
    conversionFailure chain message =
      "Failed to convert " ++ chain ++ " address to Wormhole format: " ++ message :=
  rfl

/-- The format check fails with the message of the chain's validator when
that validator rejects the address. -/
theorem checkAddressFormat_of_invalid (address chain : String) (hc : chain ∈ CHAINS)
    (hbad : (if chain = "solana" then isValidSolanaAddress address
      else isValidEthereumAddress address) = false) :
    checkAddressFormat address chain =
      .error ((if chain = "solana" then "Invalid Solana address format: "
        else "Invalid Ethereum address format: ") ++ address) := by
  simp only [CHAINS, List.mem_cons, List.mem_singleton, List.not_mem_nil, or_false] at hc
  rcases hc with rfl | rfl | rfl | rfl | rfl <;>
    simp_all [checkAddressFormat] <;> rfl

/-- C7: for a supported chain and an address that fails the validator of
that chain, the conversion fails with an error whose message is the text
`Failed to convert <chain> address to Wormhole format: ` followed by the
invalid-address message of the chain (`Invalid Solana address format: ` or
`Invalid Ethereum address format: `, then the address), and the library is
never called. -/
theorem convertToWormholeFormat_invalid_address (lib : AddressLibrary)
    (address chain : String) (hc : chain ∈ CHAINS)
    (hbad : (if chain = "solana" then isValidSolanaAddress address
      else isValidEthereumAddress address) = false) :
    (convertToWormholeFormat lib address chain).result =
        .error ("Failed to convert " ++ chain ++ " address to Wormhole format: " ++
          ((if chain = "solana" then "Invalid Solana address format: "
            else "Invalid Ethereum address format: ") ++ address)) ∧
      (convertToWormholeFormat lib address chain).libraryCalls = [] := by
  have h := convertToWormholeFormat_of_format_error lib address chain _
    (checkAddressFormat_of_invalid address chain hc hbad)
  rw [conversionFailure_eq] at h
  exact h

set_option maxRecDepth 100000 in
/-- The address `0OIl` on `solana` and the address `abc` on `ethereum`: each
is rejected by the validator of its chain, and the error carries the wrapper
text in full. -/
theorem convertToWormholeFormat_invalid_address_witness :
    "solana" ∈ CHAINS ∧ isValidSolanaAddress "0OIl" = false ∧
      (convertToWormholeFormat (fun _ _ => .ok "universal") "0OIl" "solana").result =
        .error ("Failed to convert solana address to Wormhole format: " ++
          "Invalid Solana address format: 0OIl") ∧
      (convertToWormholeFormat (fun _ _ => .ok "universal") "0OIl" "solana").libraryCalls = [] ∧
      "ethereum" ∈ CHAINS ∧ isValidEthereumAddress "abc" = false ∧
      (convertToWormholeFormat (fun _ _ => .ok "universal") "abc" "ethereum").result =
        .error ("Failed to convert ethereum address to Wormhole format: " ++
          "Invalid Ethereum address format: abc") ∧
      (convertToWormholeFormat (fun _ _ => .ok "universal") "abc" "ethereum").libraryCalls = [] :=
  ⟨by decide, by decide,
    (convertToWormholeFormat_invalid_address (fun _ _ => .ok "universal") "0OIl" "solana"
      (by decide) (by decide)).1,
    (convertToWormholeFormat_invalid_address (fun _ _ => .ok "universal") "0OIl" "solana"
      (by decide) (by decide)).2,
    by decide, by decide,
    (convertToWormholeFormat_invalid_address (fun _ _ => .ok "universal") "abc" "ethereum"
      (by decide) (by decide)).1,
    (convertToWormholeFormat_invalid_address (fun _ _ => .ok "universal") "abc" "ethereum"
      (by decide) (by decide)).2⟩

/-! ## The URL check -/

/-- The method `startsWith` holds exactly when the string is the prefix
followed by something. -/
theorem startsWith_iff (s pre : String) :
    startsWith s pre = true ↔ ∃ rest : String, s = pre ++ rest := by
  simp only [startsWith, List.isPrefixOf_iff_prefix]
  constructor
  · rintro ⟨t, ht⟩
    refine ⟨String.mk t, ?_⟩
    apply String.ext
    rw [String.data_append]
    exact ht.symm
  · rintro ⟨rest, rfl⟩
    exact ⟨rest.toList, (String.data_append _ _).symm⟩

/-- The value of `isValidUrl`, which is never an exception. -/
theorem isValidUrl_eq (newURL : String → Except String Unit) (s : String) :
    isValidUrl newURL s =
      .ok (match newURL s with
        | .ok _ => startsWith s "http://" || startsWith s "https://"
        | .error _ => false) := by
  unfold isValidUrl
  cases h : newURL s <;> rfl

/-- C8: `isValidUrl` never throws; it returns true exactly when the string
parses as a URL and starts with `http://` or `https://`; without one of the
two prefixes it returns false, as for `ftp://example.com`, and
`https://example.com` gives true as soon as the platform parses it. -/
theorem isValidUrl_spec (newURL : String → Except String Unit) (s : String) :
    (∃ b, isValidUrl newURL s = .ok b) ∧
    (isValidUrl newURL s = .ok true ↔
      (∃ u, newURL s = .ok u) ∧
        ((∃ rest : String, s = "http://" ++ rest) ∨ ∃ rest : String, s = "https://" ++ rest)) ∧
    ((¬ (∃ rest : String, s = "http://" ++ rest) ∧ ¬ ∃ rest : String, s = "https://" ++ rest) →
      isValidUrl newURL s = .ok false) ∧
    isValidUrl newURL "ftp://example.com" = .ok false ∧
    ((∃ u, newURL "https://example.com" = .ok u) →
      isValidUrl newURL "https://example.com" = .ok true) := by
  refine ⟨⟨_, isValidUrl_eq newURL s⟩, ?_, ?_, ?_, ?_⟩
  · rw [isValidUrl_eq, ← startsWith_iff, ← startsWith_iff]
    cases h : newURL s <;> simp
  · rintro ⟨h1, h2⟩
    rw [← startsWith_iff] at h1 h2
    rw [isValidUrl_eq]
    cases h : newURL s <;> simp [h1, h2]
  · have h1 : startsWith "ftp://example.com" "http://" = false := by decide
    have h2 : startsWith "ftp://example.com" "https://" = false := by decide
    rw [isValidUrl_eq]
    cases newURL "ftp://example.com" <;> simp [h1, h2]
  · rintro ⟨u, hu⟩
    have h2 : startsWith "https://example.com" "https://" = true := by decide
    rw [isValidUrl_eq, hu]
    simp [h2]

/-! ## The `validate` command -/

/-- One round of the `forEach` loop never throws, and `hasErrors` is set
afterwards exactly when it was set before or the entry breaks an invariant. -/
theorem checkChain_ok (newURL : String → Except String Unit) (r : Report)
    (entry : String × ChainConfig) :
    ∃ r2, checkChain newURL r entry = .ok r2 ∧
      (r2.hasErrors = true ↔ r.hasErrors = true ∨ ¬ chainEntryValid newURL entry) := by
  obtain ⟨b, hb⟩ : ∃ b, isValidUrl newURL entry.2.rpc = .ok b := ⟨_, isValidUrl_eq _ _⟩
  simp only [checkChain, hb, bind, Except.bind, pure, Except.pure, chainEntryValid]
  refine ⟨_, rfl, ?_⟩
  by_cases h1 : entry.1 ∈ CHAINS <;> by_cases h3 : entry.2.tokenAddress = "" <;>
    by_cases h4 : entry.2.mode ∈ MODES <;> cases b <;> cases hr : r.hasErrors <;>
    simp_all [Report.fail, MODES]

/-- The whole `forEach` loop never throws, and `hasErrors` is set afterwards
exactly when it was set before or some entry breaks an invariant. -/
theorem checkChain_foldlM (newURL : String → Except String Unit) (entries : Chains) :
    ∀ r : Report, ∃ r2, entries.foldlM (checkChain newURL) r = .ok r2 ∧
      (r2.hasErrors = true ↔
        r.hasErrors = true ∨ ∃ e ∈ entries, ¬ chainEntryValid newURL e) := by
  induction entries with
  | nil =>
    intro r
    exact ⟨r, rfl, by simp⟩
  | cons e rest ih =>
    intro r
    obtain ⟨r1, h1, hr1⟩ := checkChain_ok newURL r e
    obtain ⟨r2, h2, hr2⟩ := ih r1
    refine ⟨r2, ?_, ?_⟩
    · rw [List.foldlM_cons, h1]
      exact h2
    · rw [hr2, hr1]
      simp only [List.mem_cons, exists_eq_or_imp]
      tauto

/-- The network check sets `hasErrors` unless the network is one of the
three network names. -/
theorem checkNetwork_hasErrors (network : Option String) (r : Report) :
    (checkNetwork network r).hasErrors = true ↔
      r.hasErrors = true ∨
        ¬ (network = some "mainnet" ∨ network = some "testnet" ∨ network = some "devnet") := by
  cases network with
  | none => simp [checkNetwork, truthyString, includes, Report.fail]
  | some n =>
    by_cases h : n = "mainnet" ∨ n = "testnet" ∨ n = "devnet"
    · have hn : (!truthyString (some n) || !includes NETWORKS (some n)) = false := by
        rcases h with rfl | rfl | rfl <;> decide
      simp [checkNetwork, hn, Report.pass, h]
    · have hn : (!truthyString (some n) || !includes NETWORKS (some n)) = true := by
        simp only [not_or] at h
        simp [includes, NETWORKS, h]
      simp [checkNetwork, hn, Report.fail, h]

/-- The chain-count check sets `hasErrors` when fewer than two chains are
configured. -/
theorem checkChainCount_hasErrors (chains : Chains) (r : Report) :
    (checkChainCount (some chains) r).hasErrors = true ↔
      r.hasErrors = true ∨ chains.length < 2 := by
  simp only [checkChainCount]
  split <;> simp [Report.fail, Report.pass, *]

/-- The mode-constraint report sets `hasErrors` when the result is invalid. -/
theorem checkModeValidation_hasErrors (validation : ModeValidation) (r : Report) :
    (checkModeValidation validation r).hasErrors = true ↔
      r.hasErrors = true ∨ validation.valid = false := by
  simp only [checkModeValidation]
  cases h : validation.valid <;> simp [Report.fail, Report.pass]

/-- On a document with a `chains` mapping no exception escapes
`validateLoaded`, and `hasErrors` stays clear exactly when every invariant
holds. -/
theorem validateLoaded_some (newURL : String → Except String Unit) (network : Option String)
    (chains : Chains) (printed : List String) :
    ∃ r, validateLoaded newURL ⟨network, some chains⟩ printed = (r, none) ∧
      (r.hasErrors = false ↔
        (network = some "mainnet" ∨ network = some "testnet" ∨ network = some "devnet") ∧
          2 ≤ chains.length ∧ lockingCount chains ≤ 1 ∧
          ∀ e ∈ chains, chainEntryValid newURL e) := by
  simp only [validateLoaded, validateModeConstraints_some, objectEntries, pure, Except.pure]
  obtain ⟨r2, h2, hr2⟩ := checkChain_foldlM newURL chains
    (checkModeValidation
      (if 1 < lockingCount chains then
        ⟨false, some (lockingRuleText ++ ", ".intercalate (lockingNames chains))⟩
      else ⟨true, none⟩)
      (checkChainCount (some chains)
        (checkNetwork network ⟨printed ++ ["Validating configuration...\n"], false⟩)))
  refine ⟨r2, by rw [h2], ?_⟩
  rw [checkModeValidation_hasErrors, checkChainCount_hasErrors, checkNetwork_hasErrors] at hr2
  have hv : (if 1 < lockingCount chains then
        (⟨false, some (lockingRuleText ++ ", ".intercalate (lockingNames chains))⟩ :
          ModeValidation)
      else ⟨true, none⟩).valid = false ↔ 1 < lockingCount chains := by
    split <;> simp [*]
  rw [hv] at hr2
  rw [← Bool.not_eq_true, hr2]
  constructor
  · intro h
    refine ⟨?_, ?_, ?_, ?_⟩
    · by_contra hA
      exact h (Or.inl (Or.inl (Or.inl (Or.inr hA))))
    · by_contra hl
      exact h (Or.inl (Or.inl (Or.inr (by omega))))
    · by_contra hc
      exact h (Or.inl (Or.inr (by omega)))
    · intro e he
      by_contra hv
      exact h (Or.inr ⟨e, he, hv⟩)
  · rintro ⟨h1, h2, h3, h4⟩ h
    rcases h with (((h | h) | h) | h) | ⟨e, he, hv⟩
    · simp at h
    · exact h h1
    · omega
    · omega
    · exact hv (h4 e he)

/-- C9: on a loaded configuration whose `chains` field is a mapping of chain
configurations, the validate command ends without a non-zero exit exactly
when the network is one of the three network names, there are at least two
chains, at most one is in locking mode, and every entry has a supported
name, an RPC accepted by `isValidUrl`, a non-empty token address and one of
the two modes; otherwise it exits with code 1.  No exception escapes and the
file is left as it is. -/
theorem validateConfig_returns_iff (newURL : String → Except String Unit)
    (network : Option String) (chains : Chains) :
    ((validateConfig newURL (.document ⟨network, some chains⟩)).status = .returned ↔
      (network = some "mainnet" ∨ network = some "testnet" ∨ network = some "devnet") ∧
        2 ≤ chains.length ∧ lockingCount chains ≤ 1 ∧
        ∀ e ∈ chains, e.1 ∈ CHAINS ∧ isValidUrl newURL e.2.rpc = .ok true ∧
          e.2.tokenAddress ≠ "" ∧ (e.2.mode = "locking" ∨ e.2.mode = "burning")) ∧
    ((validateConfig newURL (.document ⟨network, some chains⟩)).status = .returned ∨
      (validateConfig newURL (.document ⟨network, some chains⟩)).status = .exit 1) ∧
    (validateConfig newURL (.document ⟨network, some chains⟩)).file =
      .document ⟨network, some chains⟩ := by
  obtain ⟨r, hr, hiff⟩ := validateLoaded_some newURL network chains []
  have hrun : validateConfig newURL (.document ⟨network, some chains⟩) =
      if r.hasErrors = true then
        ⟨r.output ++ ["\n❌ Configuration validation failed!\n"], .exit 1,
          .document ⟨network, some chains⟩⟩
      else
        ⟨r.output ++ ["\n✓ Configuration is valid!\n"], .returned,
          .document ⟨network, some chains⟩⟩ := by
    simp only [validateConfig, loadConfig, hr]
  rw [hrun]
  cases hE : r.hasErrors with
  | true =>
    have hno := mt hiff.2 (by simp [hE])
    exact ⟨by simpa [chainEntryValid] using hno, Or.inr (by simp), by simp⟩
  | false =>
    have hyes := hiff.1 hE
    exact ⟨by simpa [chainEntryValid] using hyes, Or.inl (by simp), by simp⟩

/-! ## The `remove` command -/

/-- Deleting a key that is present once removes exactly one entry. -/
theorem deleteProperty_length {α : Type} (entries : List (String × α)) (key : String)
    (hnodup : (entries.map Prod.fst).Nodup) (hmem : key ∈ entries.map Prod.fst) :
    (deleteProperty entries key).length + 1 = entries.length := by
  induction entries with
  | nil => simp at hmem
  | cons e rest ih =>
    simp only [List.map_cons, List.nodup_cons, List.mem_cons] at hnodup hmem
    by_cases he : e.1 = key
    · have hnot : key ∉ rest.map Prod.fst := he ▸ hnodup.1
      have hrest : deleteProperty rest key = rest := by
        simp only [deleteProperty, List.filter_eq_self]
        intro x hx
        have : x.1 ≠ key := fun h => hnot (h ▸ List.mem_map_of_mem Prod.fst hx)
        simpa using this
      have hhead : deleteProperty (e :: rest) key = deleteProperty rest key := by
        simp [deleteProperty, List.filter_cons, he]
      rw [hhead, hrest, List.length_cons]
    · have hin : key ∈ rest.map Prod.fst := by
        rcases hmem with h | h
        · exact absurd h.symm he
        · exact h
      have hhead : deleteProperty (e :: rest) key = e :: deleteProperty rest key := by
        simp [deleteProperty, List.filter_cons, he]
      rw [hhead, List.length_cons, List.length_cons, ih hnodup.2 hin]

/-- A key that is present reads as an own value. -/
theorem getProperty_of_mem {α : Type} (entries : List (String × α)) (key : String)
    (hmem : key ∈ entries.map Prod.fst) : ∃ v, getProperty entries key = .own v := by
  simp only [getProperty]
  cases h : entries.find? fun e => e.1 == key with
  | some e => exact ⟨e.2, rfl⟩
  | none =>
    exfalso
    rw [List.find?_eq_none] at h
    obtain ⟨e, he, hk⟩ := List.mem_map.1 hmem
    exact h e he (by simp [hk])

/-- The guard on the chain name: `remove` with the empty string as chain name
exits with code 1 and leaves the file as it is, whatever the file holds. -/
theorem removeChain_empty_name (writable : Bool) (file : ConfigFile) :
    (removeChain writable file "").status = .exit 1 ∧
      (removeChain writable file "").file = file := by
  cases file <;> exact ⟨rfl, rfl⟩

/-- C10 (as amended): for a configuration and a non-empty chain name present
in it, `remove` exits with code 1 and leaves the file as it is when fewer
than 2 chains would remain, in particular on every 2-chain configuration;
when 2 or more would remain, the document written is the original one with
exactly that entry deleted, network and all other entries kept as they are
and in order.  With the empty string as chain name `remove` always exits
with code 1 and leaves the file as it is, whatever the file holds. -/
theorem removeChain_spec (writable : Bool) (network : Option String) (chains : Chains)
    (chainName : String) (hnodup : (chains.map Prod.fst).Nodup)
    (hmem : chainName ∈ chains.map Prod.fst) (hne : chainName ≠ "") :
    (chains.length - 1 < 2 →
      (removeChain writable (.document ⟨network, some chains⟩) chainName).status = .exit 1 ∧
      (removeChain writable (.document ⟨network, some chains⟩) chainName).file =
        .document ⟨network, some chains⟩) ∧
    (chains.length = 2 →
      (removeChain writable (.document ⟨network, some chains⟩) chainName).status = .exit 1 ∧
      (removeChain writable (.document ⟨network, some chains⟩) chainName).file =
        .document ⟨network, some chains⟩) ∧
    (2 ≤ chains.length - 1 → writable = true →
      (removeChain writable (.document ⟨network, some chains⟩) chainName).status = .returned ∧
      (removeChain writable (.document ⟨network, some chains⟩) chainName).file =
        .document ⟨network, some (chains.filter fun e => decide (e.1 ≠ chainName))⟩) ∧
    ((chains.filter fun e => decide (e.1 ≠ chainName)).length = chains.length - 1 ∧
      (∀ e, e ∈ (chains.filter fun e => decide (e.1 ≠ chainName)) ↔
        e ∈ chains ∧ e.1 ≠ chainName) ∧
      (chains.filter fun e => decide (e.1 ≠ chainName)).Sublist chains) ∧
    (∀ (anyWritable : Bool) (anyFile : ConfigFile),
      (removeChain anyWritable anyFile "").status = .exit 1 ∧
        (removeChain anyWritable anyFile "").file = anyFile) := by
  have hdel : deleteProperty chains chainName =
      chains.filter fun e => decide (e.1 ≠ chainName) := by
    simp only [deleteProperty]
    congr 1
    funext e
    simp only [bne, ne_eq, decide_not]
    rfl
  have hlen := deleteProperty_length chains chainName hnodup hmem
  obtain ⟨v, hv⟩ := getProperty_of_mem chains chainName hmem
  have hb : (!(chainName != "")) = false := by simp [hne]
  have hrej : (deleteProperty chains chainName).length < 2 →
      removeChain writable (.document ⟨network, some chains⟩) chainName =
        ⟨["Error: Cannot remove chain. At least 2 chains are required."], .exit 1,
          .document ⟨network, some chains⟩⟩ := by
    intro hlt
    simp only [removeChain, loadConfig, hv, PropertyValue.truthy, hb]
    simp [hlt]
  have hwrite : ¬ (deleteProperty chains chainName).length < 2 → writable = true →
      removeChain writable (.document ⟨network, some chains⟩) chainName =
        ⟨["✓ Removed " ++ chainName ++ " from configuration\n"], .returned,
          .document ⟨network, some (deleteProperty chains chainName)⟩⟩ := by
    intro hge hw
    subst hw
    simp only [removeChain, loadConfig, hv, PropertyValue.truthy, hb, saveConfig]
    simp [hge]
  rw [hdel] at hlen hrej hwrite
  refine ⟨?_, ?_, ?_, ⟨by omega, ?_, List.filter_sublist chains⟩,
    fun anyWritable anyFile => removeChain_empty_name anyWritable anyFile⟩
  · intro h
    rw [hrej (by omega)]
    exact ⟨rfl, rfl⟩
  · intro h
    rw [hrej (by omega)]
    exact ⟨rfl, rfl⟩
  · intro h hw
    rw [hwrite (by omega) hw]
    exact ⟨rfl, rfl⟩
  · intro e
    simp

/-- Removing `base` from a three-chain configuration writes the other two;
removing a chain from the two that are left is refused. -/
theorem removeChain_spec_witness :
    (List.map Prod.fst
        [("ethereum", (⟨"https://a", "$A", "0xa", "locking"⟩ : ChainConfig)),
          ("base", ⟨"https://b", "$B", "0xb", "burning"⟩),
          ("solana", ⟨"https://c", "$C", "0xc", "burning"⟩)]).Nodup ∧
      "base" ∈ List.map Prod.fst
        [("ethereum", (⟨"https://a", "$A", "0xa", "locking"⟩ : ChainConfig)),
          ("base", ⟨"https://b", "$B", "0xb", "burning"⟩),
          ("solana", ⟨"https://c", "$C", "0xc", "burning"⟩)] ∧
      "base" ≠ "" ∧
      ((removeChain true (.document ⟨some "testnet",
        some [("ethereum", ⟨"https://a", "$A", "0xa", "locking"⟩),
          ("base", ⟨"https://b", "$B", "0xb", "burning"⟩),
          ("solana", ⟨"https://c", "$C", "0xc", "burning"⟩)]⟩) "base").status = .returned ∧
      (removeChain true (.document ⟨some "testnet",
        some [("ethereum", ⟨"https://a", "$A", "0xa", "locking"⟩),
          ("base", ⟨"https://b", "$B", "0xb", "burning"⟩),
          ("solana", ⟨"https://c", "$C", "0xc", "burning"⟩)]⟩) "base").file =
      .document ⟨some "testnet",
        some [("ethereum", ⟨"https://a", "$A", "0xa", "locking"⟩),
          ("solana", ⟨"https://c", "$C", "0xc", "burning"⟩)]⟩) ∧
      ((removeChain true (.document ⟨some "testnet",
        some [("ethereum", ⟨"https://a", "$A", "0xa", "locking"⟩),
          ("solana", ⟨"https://c", "$C", "0xc", "burning"⟩)]⟩) "solana").status = .exit 1 ∧
      (removeChain true (.document ⟨some "testnet",
        some [("ethereum", ⟨"https://a", "$A", "0xa", "locking"⟩),
          ("solana", ⟨"https://c", "$C", "0xc", "burning"⟩)]⟩) "solana").file =
      .document ⟨some "testnet",
        some [("ethereum", ⟨"https://a", "$A", "0xa", "locking"⟩),
          ("solana", ⟨"https://c", "$C", "0xc", "burning"⟩)]⟩) :=
  ⟨by decide, by decide, by decide,
    (removeChain_spec true (some "testnet")
      [("ethereum", ⟨"https://a", "$A", "0xa", "locking"⟩),
        ("base", ⟨"https://b", "$B", "0xb", "burning"⟩),
        ("solana", ⟨"https://c", "$C", "0xc", "burning"⟩)] "base"
      (by decide) (by decide) (by decide)).2.2.1 (by decide) rfl,
    (removeChain_spec true (some "testnet")
      [("ethereum", ⟨"https://a", "$A", "0xa", "locking"⟩),
        ("solana", ⟨"https://c", "$C", "0xc", "burning"⟩)] "solana"
      (by decide) (by decide) (by decide)).2.1 rfl⟩

/-- C10 (as stated) fails: a configuration whose three chains are named by the
empty string, `ethereum` and `base` keeps two chains when the first is
removed, yet `remove` exits with code 1 and writes nothing. -/
theorem removeChain_empty_name_counterexample :
    "" ∈ List.map Prod.fst
        [("", (⟨"https://c", "$C", "0xc", "burning"⟩ : ChainConfig)),
          ("ethereum", ⟨"https://a", "$A", "0xa", "locking"⟩),
          ("base", ⟨"https://b", "$B", "0xb", "burning"⟩)] ∧
      2 ≤ (deleteProperty
        [("", (⟨"https://c", "$C", "0xc", "burning"⟩ : ChainConfig)),
          ("ethereum", ⟨"https://a", "$A", "0xa", "locking"⟩),
          ("base", ⟨"https://b", "$B", "0xb", "burning"⟩)] "").length ∧
      removeChain true (.document ⟨some "testnet",
        some [("", ⟨"https://c", "$C", "0xc", "burning"⟩),
          ("ethereum", ⟨"https://a", "$A", "0xa", "locking"⟩),
          ("base", ⟨"https://b", "$B", "0xb", "burning"⟩)]⟩) "" =
      ⟨["Error: Chain name is required. Usage: heimdall remove <chain>"], .exit 1,
        .document ⟨some "testnet",
          some [("", ⟨"https://c", "$C", "0xc", "burning"⟩),
            ("ethereum", ⟨"https://a", "$A", "0xa", "locking"⟩),
            ("base", ⟨"https://b", "$B", "0xb", "burning"⟩)]⟩⟩ := by
  decide

/-! ## The `validate` command on a document without chains -/

/-- C14: on a well-formed document without a `chains` field, whatever its
network, `validateConfig` prints the too-few-chains diagnostic and then the
`TypeError` thrown by `Object.entries(undefined)` inside
`validateModeConstraints` escapes: the run does not end in `process.exit(1)`.
The documents `{}` and `{"network": "testnet"}` are the two instances shown. -/
theorem validateConfig_missing_chains (newURL : String → Except String Unit)
    (network : Option String) :
    (validateConfig newURL (.document ⟨network, none⟩)).status =
        .uncaught "TypeError: Cannot convert undefined or null to object" ∧
      "✗ At least 2 chains are required" ∈
        (validateConfig newURL (.document ⟨network, none⟩)).output ∧
      (validateConfig newURL (.document ⟨network, none⟩)).status ≠ .exit 1 ∧
      validateConfig newURL (.document ⟨none, none⟩) =
        ⟨["Validating configuration...\n", "✗ Invalid network: undefined",
            "✗ At least 2 chains are required"],
          .uncaught "TypeError: Cannot convert undefined or null to object",
          .document ⟨none, none⟩⟩ ∧
      validateConfig newURL (.document ⟨some "testnet", none⟩) =
        ⟨["Validating configuration...\n", "✓ Network: testnet",
            "✗ At least 2 chains are required"],
          .uncaught "TypeError: Cannot convert undefined or null to object",
          .document ⟨some "testnet", none⟩⟩ := by
  have hrun : validateConfig newURL (.document ⟨network, none⟩) =
      ⟨(checkChainCount none
          (checkNetwork network ⟨[] ++ ["Validating configuration...\n"], false⟩)).output,
        .uncaught "TypeError: Cannot convert undefined or null to object",
        .document ⟨network, none⟩⟩ := rfl
  refine ⟨by rw [hrun], ?_, by rw [hrun]; simp, rfl, rfl⟩
  rw [hrun]
  simp [checkChainCount, Report.fail]

/-! ## The non-interactive `init` flow -/

/-- The value of `convertToWormholeFormat` when the format check passes and
the chain is a supported one. -/
theorem convertToWormholeFormat_ethereum (lib : AddressLibrary) (universal : String)
    (h : lib (.own "Ethereum") "0x0123456789abcdefABCDEF0123456789abcdefAB" = .ok universal) :
    (convertToWormholeFormat lib "0x0123456789abcdefABCDEF0123456789abcdefAB"
      "ethereum").result = .ok universal := by
  have hv : isValidEthereumAddress "0x0123456789abcdefABCDEF0123456789abcdefAB" = true := by
    decide
  have hf : checkAddressFormat "0x0123456789abcdefABCDEF0123456789abcdefAB" "ethereum" =
      .ok () := by
    simp [checkAddressFormat, hv]
    rfl
  have hg : getProperty CHAIN_NAME_MAP "ethereum" = .own "Ethereum" := by decide
  simp [convertToWormholeFormat, convertBody, hf, hg, PropertyValue.truthy, h]

set_option maxRecDepth 100000 in
/-- C11: two `--chain` values that name the same chain pass the count check
of `nonInteractiveInit`, but the second round of the loop overwrites the entry
of the first, and the configuration written has a single chain. -/
theorem nonInteractiveInit_duplicate_chain :
    duplicateChainArgv.chain = some ["ethereum", "ethereum"] ∧
      ∀ (lib : AddressLibrary) (newURL : String → Except String Unit) (universal : String),
        newURL "https://rpc.sepolia.org" = .ok () →
        lib (.own "Ethereum") "0x0123456789abcdefABCDEF0123456789abcdefAB" = .ok universal →
        (nonInteractiveInit lib newURL true .missing duplicateChainArgv).status = .returned ∧
        (nonInteractiveInit lib newURL true .missing duplicateChainArgv).file =
          .document ⟨some "testnet",
            some [("ethereum",
              ⟨"https://rpc.sepolia.org", "$\x7bETH_KEY\x7d", universal, "burning"⟩)]⟩ := by
  refine ⟨rfl, fun lib newURL universal hurl hlib => ?_⟩
  have hconv := convertToWormholeFormat_ethereum lib universal hlib
  have hu : isValidUrl newURL "https://rpc.sepolia.org" = .ok true := by
    rw [isValidUrl_eq, hurl]
    have : startsWith "https://rpc.sepolia.org" "https://" = true := by decide
    simp [this]
  have hstep : ∀ p : InitProgress,
      initChain lib newURL duplicateChainArgv "testnet" p "ethereum" =
        .ok ⟨setProperty p.chains "ethereum"
            ⟨"https://rpc.sepolia.org", "$\x7bETH_KEY\x7d", universal, "burning"⟩,
          p.envVarInstructions ++ ["ETH_KEY"]⟩ := by
    intro p
    have hd : getDefaultRpc "ethereum" (some "testnet") = .own "https://rpc.sepolia.org" := by
      decide
    have h1 : duplicateChainArgv.option ("ethereum" ++ "Rpc") = none := by decide
    have h2 : duplicateChainArgv.option ("ethereum" ++ "Token") =
        some "0x0123456789abcdefABCDEF0123456789abcdefAB" := by decide
    have h3 : duplicateChainArgv.option ("ethereum" ++ "Key") = some "ETH_KEY" := by decide
    have h4 : duplicateChainArgv.option ("ethereum" ++ "Mode") = none := by decide
    have h5 : CHAINS.contains "ethereum" = true := by decide
    have h6 : MODES.contains "burning" = true := by decide
    simp only [initChain, h1, h2, h3, h4, h5, hd, hu, orString, truthyString, display, h6,
      hconv, PropertyValue.truthy]
    rfl
  have hrun : nonInteractiveInit lib newURL true .missing duplicateChainArgv =
      finishInit true .missing false "testnet"
        ⟨[("ethereum", ⟨"https://rpc.sepolia.org", "$\x7bETH_KEY\x7d", universal, "burning"⟩)],
          ["ETH_KEY", "ETH_KEY"]⟩ := by
    have hn : orString duplicateChainArgv.env (orString duplicateChainArgv.network "testnet") =
        "testnet" := by decide
    have hc : NETWORKS.contains "testnet" = true := by decide
    have hch : duplicateChainArgv.chain = some ["ethereum", "ethereum"] := rfl
    have hf : duplicateChainArgv.force = false := rfl
    have hset : setProperty (setProperty ([] : Chains) "ethereum"
          ⟨"https://rpc.sepolia.org", "$\x7bETH_KEY\x7d", universal, "burning"⟩) "ethereum"
          ⟨"https://rpc.sepolia.org", "$\x7bETH_KEY\x7d", universal, "burning"⟩ =
        [("ethereum", ⟨"https://rpc.sepolia.org", "$\x7bETH_KEY\x7d", universal, "burning"⟩)] := by
      rfl
    simp only [nonInteractiveInit, hn, hc, hch, hf, List.foldlM_cons, List.foldlM_nil, hstep,
      bind, Except.bind, pure, Except.pure, hset]
    rfl
  rw [hrun]
  constructor <;> rfl

/-- A successful `saveConfig` leaves the document handed to it; a failed one
leaves the file as it was. -/
theorem saveConfig_eq (writable : Bool) (file : ConfigFile) (config : Config) :
    saveConfig writable file config =
      if writable = true then (true, .document config, [])
      else (false, file, ["Error writing config file: write failed"]) := by
  cases writable <;> rfl

/-- The mode check passes exactly when at most one chain is locking. -/
theorem validateModeConstraints_valid_eq (chains : Chains) :
    ∃ validation, validateModeConstraints (some chains) = .ok validation ∧
      (validation.valid = true ↔ lockingCount chains ≤ 1) := by
  refine ⟨_, validateModeConstraints_some chains, ?_⟩
  split <;> simp <;> omega

/-- The tail of `nonInteractiveInit` writes only a configuration that passed
the mode check, and a run that does not return leaves the file as it was. -/
theorem finishInit_spec (writable : Bool) (file : ConfigFile) (force : Bool) (network : String)
    (p : InitProgress) :
    ((finishInit writable file force network p).status = .returned →
      (finishInit writable file force network p).file =
          .document ⟨some network, some p.chains⟩ ∧ lockingCount p.chains ≤ 1) ∧
    ((finishInit writable file force network p).status ≠ .returned →
      (finishInit writable file force network p).file = file) := by
  obtain ⟨validation, hv, hiff⟩ := validateModeConstraints_valid_eq p.chains
  simp only [finishInit, hv, saveConfig_eq]
  cases hvalid : validation.valid with
  | false => simp
  | true =>
    have hle := hiff.1 hvalid
    cases force <;> cases hx : existsSync file <;> cases writable <;> simp [hle]

/-- A round of the loop of `nonInteractiveInit` that ends the process does
not end it by returning. -/
theorem initChain_error_status (lib : AddressLibrary) (newURL : String → Except String Unit)
    (argv : InitArgv) (network : String) (p : InitProgress) (chain : String)
    (lines : List String) (status : Status)
    (h : initChain lib newURL argv network p chain = .error (lines, status)) :
    status ≠ .returned := by
  unfold initChain at h
  intro hst
  subst hst
  split at h
  · cases h
  · revert h
    dsimp only
    split
    · intro h
      cases h
    · split
      · intro h
        cases h
      · intro h
        cases h
      · split
        · intro h
          cases h
        · intro h
          cases h
        · split
          · intro h
            cases h
          · split
            · intro h
              cases h
            · split
              · intro h
                cases h
              · split
                · intro h
                  cases h
                · intro h
                  cases h

/-- The loop of `nonInteractiveInit`, when it ends the process, does not end
it by returning. -/
theorem initChain_foldlM_error_status (lib : AddressLibrary)
    (newURL : String → Except String Unit) (argv : InitArgv) (network : String)
    (selectedChains : List String) :
    ∀ (p : InitProgress) (lines : List String) (status : Status),
      selectedChains.foldlM (initChain lib newURL argv network) p = .error (lines, status) →
      status ≠ .returned := by
  induction selectedChains with
  | nil =>
    intro p lines status h
    cases h
  | cons chain rest ih =>
    intro p lines status h
    rw [List.foldlM_cons] at h
    cases hstep : initChain lib newURL argv network p chain with
    | error e =>
      rw [hstep] at h
      obtain ⟨l, st⟩ := e
      have he : (l, st) = (lines, status) := by
        injection h
      cases he
      exact initChain_error_status lib newURL argv network p chain _ _ hstep
    | ok p2 =>
      rw [hstep] at h
      exact ih p2 lines status h

/-- The non-interactive `init` flow writes only through `finishInit`. -/
theorem nonInteractiveInit_spec (lib : AddressLibrary) (newURL : String → Except String Unit)
    (writable : Bool) (file : ConfigFile) (argv : InitArgv) :
    ((nonInteractiveInit lib newURL writable file argv).status = .returned →
      ∃ network chains, (nonInteractiveInit lib newURL writable file argv).file =
          .document ⟨some network, some chains⟩ ∧ lockingCount chains ≤ 1) ∧
    ((nonInteractiveInit lib newURL writable file argv).status ≠ .returned →
      (nonInteractiveInit lib newURL writable file argv).file = file) := by
  simp only [nonInteractiveInit]
  split
  · simp
  · split
    · simp
    · split
      · simp
      · split
        · simp
        · split
          · next lines status h =>
            have hne := initChain_foldlM_error_status lib newURL argv _ _ _ _ _ h
            exact ⟨fun hr => absurd hr hne, fun _ => rfl⟩
          · next p h =>
            have hs := finishInit_spec writable file argv.force
              (orString argv.env (orString argv.network "testnet")) p
            exact ⟨fun hr => ⟨_, _, hs.1 hr⟩, hs.2⟩

/-! ## What the mutating commands persist -/

/-- The tail of `interactiveInit` writes only a configuration that passed the
mode check, and a run that does not return leaves the file as it was. -/
theorem finishWizard_spec (writable : Bool) (file : ConfigFile) (answers : InitAnswers)
    (s : WizardState) :
    ((finishWizard writable file answers s).status = .returned →
      (finishWizard writable file answers s).file =
          .document ⟨some answers.network, some s.chains⟩ ∧ lockingCount s.chains ≤ 1) ∧
    ((finishWizard writable file answers s).status ≠ .returned →
      (finishWizard writable file answers s).file = file) := by
  obtain ⟨validation, hv, hiff⟩ := validateModeConstraints_valid_eq s.chains
  simp only [finishWizard, hv, saveConfig_eq]
  cases hvalid : validation.valid with
  | false => cases answers.confirm <;> simp
  | true =>
    have hle := hiff.1 hvalid
    cases answers.confirm <;> cases writable <;> simp [hle]

/-- A round of the loop of `interactiveInit` ends the flow only by an
exception of the conversion. -/
theorem configureChain_stop_status (lib : AddressLibrary) (newURL : String → Except String Unit)
    (answers : InitAnswers) (privateKeys : String → String) (s : WizardState) (chain : String)
    (output : List String) (status : Status)
    (h : configureChain lib newURL answers privateKeys s chain = .stop output status) :
    status ≠ .returned := by
  unfold configureChain at h
  intro hst
  subst hst
  revert h
  dsimp only
  split
  · intro h
    cases h
  · split
    · intro h
      cases h
    · split
      · intro h
        cases h
      · split
        · intro h
          cases h
        · intro h
          cases h

/-- The loop of `interactiveInit`, when it ends the flow, does not end it by
returning. -/
theorem forEachStep_configureChain_stop_status (lib : AddressLibrary)
    (newURL : String → Except String Unit) (answers : InitAnswers)
    (privateKeys : String → String) (selectedChains : List String) :
    ∀ (s : WizardState) (output : List String) (status : Status),
      forEachStep (configureChain lib newURL answers privateKeys) selectedChains s =
        .stop output status → status ≠ .returned := by
  induction selectedChains with
  | nil =>
    intro s output status h
    cases h
  | cons chain rest ih =>
    intro s output status h
    simp only [forEachStep] at h
    cases hstep : configureChain lib newURL answers privateKeys s chain with
    | next s2 =>
      rw [hstep] at h
      exact ih s2 output status h
    | stop o st =>
      rw [hstep] at h
      cases h
      exact configureChain_stop_status lib newURL answers privateKeys s chain _ _ hstep
    | waiting =>
      rw [hstep] at h
      cases h

/-- The interactive `init` flow writes only a configuration that passed the
mode check, and a run that does not return leaves the file as it was. -/
theorem interactiveInit_spec (lib : AddressLibrary) (newURL : String → Except String Unit)
    (writable : Bool) (file : ConfigFile) (answers : InitAnswers)
    (privateKeys : String → String) (run : Run)
    (h : interactiveInit lib newURL writable file answers privateKeys = some run) :
    (run.status = .returned →
      ∃ network chains, run.file = .document ⟨some network, some chains⟩ ∧
        lockingCount chains ≤ 1) ∧
    (run.status ≠ .returned → run.file = file) := by
  unfold interactiveInit at h
  revert h
  dsimp only
  split
  · intro h
    cases h
  · split
    · intro h
      cases h
    · split
      · intro h
        cases h
      · split
        · intro h
          cases h
        · next printed status hloop =>
          intro h
          cases h
          have hne := forEachStep_configureChain_stop_status lib newURL answers privateKeys _ _
            _ _ hloop
          exact ⟨fun hr => absurd hr hne, fun _ => rfl⟩
        · next s hloop =>
          intro h
          cases h
          have hs := finishWizard_spec writable file answers s
          exact ⟨fun hr => ⟨_, _, hs.1 hr⟩, hs.2⟩

/-- The `add` command writes only a configuration that passed the mode
check, and a run that does not return leaves the file as it was. -/
theorem addChain_spec (lib : AddressLibrary) (newURL : String → Except String Unit)
    (writable : Bool) (file : ConfigFile) (chainName : String) (answers : AddAnswers)
    (privateKey : String) (run : Run)
    (h : addChain lib newURL writable file chainName answers privateKey = some run) :
    (run.status = .returned →
      ∃ network chains, run.file = .document ⟨network, some chains⟩ ∧
        lockingCount chains ≤ 1) ∧
    (run.status ≠ .returned → run.file = file) := by
  unfold addChain at h
  revert h
  split
  · intro h
    cases h
    simp
  · next config printed hload =>
    split
    · intro h
      cases h
      simp
    · split
      · intro h
        cases h
        simp
      · split
        · intro h
          cases h
          simp
        · next entries hchains =>
          split
          · intro h
            cases h
            simp
          · unfold addPrompted
            dsimp only
            split
            · intro h
              cases h
            · split
              · intro h
                cases h
              · split
                · intro h
                  cases h
                · split
                  · intro h
                    cases h
                  · split
                    · intro h
                      cases h
                      simp
                    · next wormholeAddress hconv =>
                      obtain ⟨validation, hv, hiff⟩ := validateModeConstraints_valid_eq
                        (setProperty entries chainName
                          ⟨answers.rpc, placeholder (toUpperCase chainName ++ "_PRIVATE_KEY"),
                            wormholeAddress, answers.mode⟩)
                      rw [hv]
                      dsimp only
                      cases hvalid : validation.valid with
                      | false =>
                        intro h
                        simp at h
                        cases h
                        simp
                      | true =>
                        have hle := hiff.1 hvalid
                        rw [saveConfig_eq]
                        cases writable
                        · intro h
                          simp at h
                          cases h
                          simp
                        · intro h
                          simp at h
                          cases h
                          exact ⟨fun _ => ⟨_, _, rfl, hle⟩, fun hne => absurd rfl hne⟩

/-- Deleting an entry does not add a locking chain. -/
theorem lockingCount_deleteProperty (entries : Chains) (key : String) :
    lockingCount (deleteProperty entries key) ≤ lockingCount entries := by
  simp only [lockingCount, deleteProperty]
  exact (List.filter_sublist entries).countP_le _

/-- The `remove` command never checks the modes: when it returns, the
document written is the loaded one without the entries of the chain, and a run
that does not return leaves the file as it was. -/
theorem removeChain_written (writable : Bool) (file : ConfigFile) (chainName : String) :
    ((removeChain writable file chainName).status = .returned →
      ∃ network entries, file = .document ⟨network, some entries⟩ ∧
        (removeChain writable file chainName).file =
          .document ⟨network, some (deleteProperty entries chainName)⟩) ∧
    ((removeChain writable file chainName).status ≠ .returned →
      (removeChain writable file chainName).file = file) := by
  cases file with
  | missing => simp [removeChain, loadConfig]
  | unreadable message => simp [removeChain, loadConfig]
  | document config =>
    obtain ⟨network, chains⟩ := config
    cases chains with
    | none =>
      simp only [removeChain, loadConfig]
      split <;> simp
    | some entries =>
      simp only [removeChain, loadConfig, saveConfig_eq]
      split
      · simp
      · split
        · simp
        · split
          · simp
          · cases writable
            · simp
            · exact ⟨fun _ => ⟨network, entries, rfl, by simp⟩, fun hne => absurd (by simp) hne⟩

/-- With at most one locking chain the mode check returns the valid result. -/
theorem validateModeConstraints_of_le (chains : Chains) (h : lockingCount chains ≤ 1) :
    validateModeConstraints (some chains) = .ok ⟨true, none⟩ := by
  rw [validateModeConstraints_some, if_neg (by omega)]

/-- C12 (as amended): whatever file was there before, both `init` flows and
`add` write only a configuration with at most one locking chain, on which
`validateModeConstraints` is valid, and leave the file as it was when they do
not return.  `remove` does not check the modes: what it writes is the loaded
document without the removed chain, which has no more locking chains than the
loaded one and so passes the check whenever the loaded one did. -/
theorem persisted_mode_constraint (lib : AddressLibrary) (newURL : String → Except String Unit)
    (writable : Bool) (file : ConfigFile) :
    (∀ argv, writesValidModes file (nonInteractiveInit lib newURL writable file argv)) ∧
    (∀ answers privateKeys run,
      interactiveInit lib newURL writable file answers privateKeys = some run →
        writesValidModes file run) ∧
    (∀ chainName answers privateKey run,
      addChain lib newURL writable file chainName answers privateKey = some run →
        writesValidModes file run) ∧
    (∀ chainName,
      ((removeChain writable file chainName).status = .returned →
        ∃ network entries, file = .document ⟨network, some entries⟩ ∧
          (removeChain writable file chainName).file =
            .document ⟨network, some (deleteProperty entries chainName)⟩ ∧
          lockingCount (deleteProperty entries chainName) ≤ lockingCount entries ∧
          (lockingCount entries ≤ 1 →
            validateModeConstraints (some (deleteProperty entries chainName)) =
              .ok ⟨true, none⟩)) ∧
      ((removeChain writable file chainName).status ≠ .returned →
        (removeChain writable file chainName).file = file)) := by
  refine ⟨fun argv => ?_, fun answers privateKeys run h => ?_,
    fun chainName answers privateKey run h => ?_, fun chainName => ?_⟩
  · obtain ⟨h1, h2⟩ := nonInteractiveInit_spec lib newURL writable file argv
    refine ⟨fun hr => ?_, h2⟩
    obtain ⟨network, chains, hf, hle⟩ := h1 hr
    exact ⟨some network, chains, hf, hle, validateModeConstraints_of_le chains hle⟩
  · obtain ⟨h1, h2⟩ := interactiveInit_spec lib newURL writable file answers privateKeys run h
    refine ⟨fun hr => ?_, h2⟩
    obtain ⟨network, chains, hf, hle⟩ := h1 hr
    exact ⟨some network, chains, hf, hle, validateModeConstraints_of_le chains hle⟩
  · obtain ⟨h1, h2⟩ := addChain_spec lib newURL writable file chainName answers privateKey run h
    refine ⟨fun hr => ?_, h2⟩
    obtain ⟨network, chains, hf, hle⟩ := h1 hr
    exact ⟨network, chains, hf, hle, validateModeConstraints_of_le chains hle⟩
  · obtain ⟨h1, h2⟩ := removeChain_written writable file chainName
    refine ⟨fun hr => ?_, h2⟩
    obtain ⟨network, entries, hf, hw⟩ := h1 hr
    have hle := lockingCount_deleteProperty entries chainName
    exact ⟨network, entries, hf, hw, hle,
      fun h => validateModeConstraints_of_le _ (le_trans hle h)⟩

/-- C12 (as stated) fails for `remove`: from a file with the locking chains
`ethereum` and `base` and the burning chain `solana`, removing `solana`
returns and writes a configuration with two locking chains, on which
`validateModeConstraints` is not valid. -/
theorem removeChain_keeps_two_locking :
    (removeChain true (.document ⟨some "testnet",
        some [("ethereum", ⟨"https://a", "$A", "0xa", "locking"⟩),
          ("base", ⟨"https://b", "$B", "0xb", "locking"⟩),
          ("solana", ⟨"https://c", "$C", "0xc", "burning"⟩)]⟩) "solana").status = .returned ∧
      (removeChain true (.document ⟨some "testnet",
        some [("ethereum", ⟨"https://a", "$A", "0xa", "locking"⟩),
          ("base", ⟨"https://b", "$B", "0xb", "locking"⟩),
          ("solana", ⟨"https://c", "$C", "0xc", "burning"⟩)]⟩) "solana").file =
        .document ⟨some "testnet",
          some [("ethereum", ⟨"https://a", "$A", "0xa", "locking"⟩),
            ("base", ⟨"https://b", "$B", "0xb", "locking"⟩)]⟩ ∧
      lockingCount [("ethereum", ⟨"https://a", "$A", "0xa", "locking"⟩),
        ("base", ⟨"https://b", "$B", "0xb", "locking"⟩)] = 2 ∧
      validateModeConstraints
          (some [("ethereum", ⟨"https://a", "$A", "0xa", "locking"⟩),
            ("base", ⟨"https://b", "$B", "0xb", "locking"⟩)]) =
        .ok ⟨false, some "Only ONE chain can use LOCKING mode. Found: ethereum, base"⟩ := by
  refine ⟨by decide, by decide, by decide, rfl⟩

/-! ## The typed private keys and the file -/

/-- An entry of an object after an assignment is an old entry or the new one. -/
theorem mem_setProperty {α : Type} (entries : List (String × α)) (key : String) (value : α)
    (e : String × α) (h : e ∈ setProperty entries key value) :
    e ∈ entries ∨ e = (key, value) := by
  unfold setProperty at h
  split at h
  · obtain ⟨x, hx, hxe⟩ := List.mem_map.1 h
    split at hxe
    · exact Or.inr hxe.symm
    · exact Or.inl (hxe ▸ hx)
  · rcases List.mem_append.1 h with h | h
    · exact Or.inl h
    · exact Or.inr (by simpa using h)

/-- One round of the wizard shows the same whatever keys are typed. -/
theorem configureChain_agree (lib : AddressLibrary) (newURL : String → Except String Unit)
    (answers : InitAnswers) (keys1 keys2 : String → String) (s1 s2 : WizardState)
    (chain : String) (hc : s1.chains = s2.chains) (ho : s1.output = s2.output) :
    stepsAgree (configureChain lib newURL answers keys1 s1 chain)
      (configureChain lib newURL answers keys2 s2 chain) := by
  simp only [configureChain, hc, ho]
  cases rpcInputAccepted newURL (answers.perChain chain).rpc
  · simp [stepsAgree]
  · cases tokenInputAccepted chain (answers.perChain chain).tokenAddress
    · simp [stepsAgree]
    · cases (convertToWormholeFormat lib (answers.perChain chain).tokenAddress chain).result
      · simp [stepsAgree]
      · cases keyInputAccepted chain (keys1 chain) <;>
          cases keyInputAccepted chain (keys2 chain) <;> simp [stepsAgree]

/-- The loop of the wizard shows the same whatever keys are typed. -/
theorem forEachStep_agree (lib : AddressLibrary) (newURL : String → Except String Unit)
    (answers : InitAnswers) (keys1 keys2 : String → String) (selectedChains : List String) :
    ∀ s1 s2 : WizardState, s1.chains = s2.chains → s1.output = s2.output →
      stepsAgree (forEachStep (configureChain lib newURL answers keys1) selectedChains s1)
        (forEachStep (configureChain lib newURL answers keys2) selectedChains s2) := by
  induction selectedChains with
  | nil =>
    intro s1 s2 hc ho
    exact ⟨hc, ho⟩
  | cons chain rest ih =>
    intro s1 s2 hc ho
    have hstep := configureChain_agree lib newURL answers keys1 keys2 s1 s2 chain hc ho
    simp only [forEachStep]
    cases h1 : configureChain lib newURL answers keys1 s1 chain <;>
      cases h2 : configureChain lib newURL answers keys2 s2 chain <;>
      rw [h1, h2] at hstep <;> simp only [stepsAgree] at hstep ⊢
    · exact ih _ _ hstep.1 hstep.2
    · cases forEachStep (configureChain lib newURL answers keys1) rest _ <;> trivial
    · exact hstep

/-- One round of the wizard stores the placeholder of the chain. -/
theorem configureChain_placeholderOnly (lib : AddressLibrary)
    (newURL : String → Except String Unit) (answers : InitAnswers)
    (privateKeys : String → String) (s s2 : WizardState) (chain : String)
    (hs : placeholderOnly s.chains)
    (h : configureChain lib newURL answers privateKeys s chain = .next s2) :
    placeholderOnly s2.chains := by
  unfold configureChain at h
  revert h
  dsimp only
  split
  · intro h
    cases h
  · split
    · intro h
      cases h
    · split
      · intro h
        cases h
      · split
        · intro h
          cases h
        · intro h
          cases h
          intro e he
          rcases mem_setProperty _ _ _ _ he with he | he
          · exact hs e he
          · subst he
            rfl

/-- The loop of the wizard stores placeholders only. -/
theorem forEachStep_placeholderOnly (lib : AddressLibrary)
    (newURL : String → Except String Unit) (answers : InitAnswers)
    (privateKeys : String → String) (selectedChains : List String) :
    ∀ s s2 : WizardState, placeholderOnly s.chains →
      forEachStep (configureChain lib newURL answers privateKeys) selectedChains s = .next s2 →
      placeholderOnly s2.chains := by
  induction selectedChains with
  | nil =>
    intro s s2 hs h
    cases h
    exact hs
  | cons chain rest ih =>
    intro s s2 hs h
    simp only [forEachStep] at h
    cases hstep : configureChain lib newURL answers privateKeys s chain with
    | next s1 =>
      rw [hstep] at h
      exact ih s1 s2 (configureChain_placeholderOnly lib newURL answers privateKeys s s1 chain
        hs hstep) h
    | stop o st =>
      rw [hstep] at h
      cases h
    | waiting =>
      rw [hstep] at h
      cases h

/-- The tail of the wizard writes and ends the same on states with the same
chains. -/
theorem finishWizard_agree (writable : Bool) (file : ConfigFile) (answers : InitAnswers)
    (s1 s2 : WizardState) (hc : s1.chains = s2.chains) :
    (finishWizard writable file answers s1).file = (finishWizard writable file answers s2).file ∧
      (finishWizard writable file answers s1).status =
        (finishWizard writable file answers s2).status := by
  obtain ⟨validation, hv, -⟩ := validateModeConstraints_valid_eq s2.chains
  simp only [finishWizard, hc, hv, saveConfig_eq]
  cases answers.confirm <;> cases validation.valid <;> cases writable <;> simp

/-- The interactive `init` flow writes and ends the same whatever keys are
typed, and what it writes stores placeholders only. -/
theorem interactiveInit_keys (lib : AddressLibrary) (newURL : String → Except String Unit)
    (writable : Bool) (file : ConfigFile) (answers : InitAnswers)
    (keys1 keys2 : String → String) (run1 run2 : Run)
    (h1 : interactiveInit lib newURL writable file answers keys1 = some run1)
    (h2 : interactiveInit lib newURL writable file answers keys2 = some run2) :
    run1.file = run2.file ∧ run1.status = run2.status ∧
      (run1.status = .returned →
        ∃ chains, run1.file = .document ⟨some answers.network, some chains⟩ ∧
          placeholderOnly chains) := by
  have hagree := forEachStep_agree lib newURL answers keys1 keys2 answers.selectedChains
    ⟨[], [], ["\n Welcome to Heimdall deployment portal!\n",
      "This cli will provision your multichain deployment config for Wormhole.\n"]⟩
    ⟨[], [], ["\n Welcome to Heimdall deployment portal!\n",
      "This cli will provision your multichain deployment config for Wormhole.\n"]⟩ rfl rfl
  unfold interactiveInit at h1 h2
  dsimp only at h1 h2
  split at h1
  · cases h1
  · split at h1
    · cases h1
    · split at h1
      · cases h1
      · rw [if_neg (by assumption), if_neg (by assumption), if_neg (by assumption)] at h2
        cases hl1 : forEachStep (configureChain lib newURL answers keys1) answers.selectedChains
            ⟨[], [], ["\n Welcome to Heimdall deployment portal!\n",
              "This cli will provision your multichain deployment config for Wormhole.\n"]⟩ with
        | waiting =>
          rw [hl1] at h1
          cases h1
        | stop o1 st1 =>
          rw [hl1] at h1
          cases h1
          have hne := forEachStep_configureChain_stop_status lib newURL answers keys1 _ _ _ _
            hl1
          cases hl2 : forEachStep (configureChain lib newURL answers keys2)
              answers.selectedChains
              ⟨[], [], ["\n Welcome to Heimdall deployment portal!\n",
                "This cli will provision your multichain deployment config for Wormhole.\n"]⟩ with
          | waiting =>
            rw [hl2] at h2
            cases h2
          | stop o2 st2 =>
            rw [hl2] at h2
            cases h2
            rw [hl1, hl2] at hagree
            exact ⟨rfl, hagree.2, fun hr => absurd hr hne⟩
          | next s2 =>
            rw [hl1, hl2] at hagree
            exact absurd hagree (by simp [stepsAgree])
        | next s1 =>
          rw [hl1] at h1
          cases h1
          have hph := forEachStep_placeholderOnly lib newURL answers keys1 _ _ s1
            (fun e he => by cases he) hl1
          cases hl2 : forEachStep (configureChain lib newURL answers keys2)
              answers.selectedChains
              ⟨[], [], ["\n Welcome to Heimdall deployment portal!\n",
                "This cli will provision your multichain deployment config for Wormhole.\n"]⟩ with
          | waiting =>
            rw [hl2] at h2
            cases h2
          | stop o2 st2 =>
            rw [hl1, hl2] at hagree
            exact absurd hagree (by simp [stepsAgree])
          | next s2 =>
            rw [hl2] at h2
            cases h2
            rw [hl1, hl2] at hagree
            obtain ⟨hf, hs⟩ := finishWizard_agree writable file answers s1 s2 hagree.1
            refine ⟨hf, hs, fun hr => ?_⟩
            exact ⟨s1.chains, ((finishWizard_spec writable file answers s1).1 hr).1, hph⟩

/-- A chain that the object does not show is appended by the assignment. -/
theorem setProperty_of_not_truthy {α : Type} (entries : List (String × α)) (key : String)
    (value : α) (h : (getProperty entries key).truthy (fun _ => true) = false) :
    setProperty entries key value = entries ++ [(key, value)] := by
  have hnone : entries.find? (fun e => e.1 == key) = none := by
    cases hf : entries.find? (fun e => e.1 == key) with
    | none => rfl
    | some e => simp [getProperty, hf, PropertyValue.truthy] at h
  have hany : entries.any (fun e => e.1 == key) = false := by
    rw [List.find?_eq_none] at hnone
    simpa using hnone
  simp [setProperty, hany]




/-- The `add` command writes and ends the same whatever key is typed; when
it returns, the document written is the loaded one with one entry appended,
which stores the placeholder of the chain. -/
theorem addChain_keys (lib : AddressLibrary) (newURL : String → Except String Unit)
    (writable : Bool) (file : ConfigFile) (chainName : String) (answers : AddAnswers)
    (key1 key2 : String) (run1 run2 : Run)
    (h1 : addChain lib newURL writable file chainName answers key1 = some run1)
    (h2 : addChain lib newURL writable file chainName answers key2 = some run2) :
    run1.file = run2.file ∧ run1.status = run2.status ∧
      (run1.status = .returned →
        ∃ network entries added, file = .document ⟨network, some entries⟩ ∧
          run1.file = .document ⟨network, some (entries ++ [(chainName, added)])⟩ ∧
          added.privateKey = placeholder (toUpperCase chainName ++ "_PRIVATE_KEY")) := by
  cases file with
  | missing =>
    simp only [addChain, loadConfig, Option.some.injEq] at h1 h2
    subst h1
    subst h2
    simp
  | unreadable message =>
    simp only [addChain, loadConfig, Option.some.injEq] at h1 h2
    subst h1
    subst h2
    simp
  | document config =>
    obtain ⟨network, chains⟩ := config
    simp only [addChain, loadConfig] at h1 h2
    by_cases hname : (!(chainName != "")) = true
    · rw [if_pos hname] at h1 h2
      cases h1
      cases h2
      simp
    · rw [if_neg hname] at h1 h2
      by_cases hsup : (!CHAINS.contains chainName) = true
      · rw [if_pos hsup] at h1 h2
        cases h1
        cases h2
        simp
      · rw [if_neg hsup] at h1 h2
        cases chains with
        | none =>
          cases h1
          cases h2
          simp
        | some entries =>
          dsimp only at h1 h2
          cases hown : (getProperty entries chainName).truthy (fun _ => true) with
          | true =>
            simp only [hown, if_true] at h1 h2
            cases h1
            cases h2
            simp
          | false =>
            have hset := fun value => setProperty_of_not_truthy entries chainName value hown
            simp only [hown, Bool.false_eq_true, if_false, addPrompted, hset] at h1 h2
            cases hr : rpcInputAccepted newURL answers.rpc with
            | false => simp [hr] at h1
            | true =>
              cases ht : tokenInputAccepted chainName answers.tokenAddress with
              | false => simp [hr, ht] at h1
              | true =>
                cases hk1 : keyInputAccepted chainName key1 with
                | false => simp [hr, ht, hk1] at h1
                | true =>
                  cases hk2 : keyInputAccepted chainName key2 with
                  | false => simp [hr, ht, hk2] at h2
                  | true =>
                    cases hm : MODES.contains answers.mode with
                    | false =>
                      simp only [hr, ht, hk1, hm, Bool.not_true, Bool.not_false,
                        Bool.false_eq_true, if_false, if_true] at h1
                      cases h1
                    | true =>
                      simp only [hr, ht, hk1, hk2, hm, Bool.not_true, Bool.false_eq_true,
                        if_false] at h1 h2
                      cases hconv :
                          (convertToWormholeFormat lib answers.tokenAddress chainName).result with
                      | error message =>
                        simp only [hconv, Option.some.injEq] at h1 h2
                        subst h1
                        subst h2
                        simp
                      | ok wormholeAddress =>
                        obtain ⟨validation, hv, -⟩ := validateModeConstraints_valid_eq
                          (entries ++ [(chainName,
                            ⟨answers.rpc, placeholder (toUpperCase chainName ++ "_PRIVATE_KEY"),
                              wormholeAddress, answers.mode⟩)])
                        simp only [hconv, hv, saveConfig_eq] at h1 h2
                        cases hvalid : validation.valid with
                        | false =>
                          simp only [hvalid, Bool.not_false, if_true, Option.some.injEq] at h1 h2
                          subst h1
                          subst h2
                          simp
                        | true =>
                          cases writable with
                          | false =>
                            simp only [hvalid, Bool.not_true, Bool.false_eq_true, if_false,
                              Option.some.injEq] at h1 h2
                            subst h1
                            subst h2
                            simp
                          | true =>
                            simp only [hvalid, Bool.not_true, Bool.false_eq_true, if_false,
                              if_true, Option.some.injEq] at h1 h2
                            subst h1
                            subst h2
                            exact ⟨rfl, rfl, fun _ => ⟨network, entries, _, rfl, rfl, rfl⟩⟩

/-- C13 (as amended): the file written by the interactive `init` flow and by
`add`, and the way the run ends, do not depend on the private keys typed: two
runs that differ only in the keys, both accepted by the prompts, leave the
same file.  Every entry the interactive flow writes, and the entry `add`
appends, stores as its private key the placeholder made of the chain name in
upper case followed by `_PRIVATE_KEY`; `add` keeps the entries already in the
file as they are. -/
theorem privateKey_not_persisted (lib : AddressLibrary) (newURL : String → Except String Unit)
    (writable : Bool) (file : ConfigFile) :
    (∀ answers keys1 keys2 run1 run2,
      interactiveInit lib newURL writable file answers keys1 = some run1 →
      interactiveInit lib newURL writable file answers keys2 = some run2 →
        run1.file = run2.file ∧ run1.status = run2.status ∧
          (run1.status = .returned →
            ∃ chains, run1.file = .document ⟨some answers.network, some chains⟩ ∧
              ∀ e ∈ chains,
                e.2.privateKey = placeholder (toUpperCase e.1 ++ "_PRIVATE_KEY"))) ∧
    (∀ chainName answers key1 key2 run1 run2,
      addChain lib newURL writable file chainName answers key1 = some run1 →
      addChain lib newURL writable file chainName answers key2 = some run2 →
        run1.file = run2.file ∧ run1.status = run2.status ∧
          (run1.status = .returned →
            ∃ network entries added, file = .document ⟨network, some entries⟩ ∧
              run1.file = .document ⟨network, some (entries ++ [(chainName, added)])⟩ ∧
              added.privateKey = placeholder (toUpperCase chainName ++ "_PRIVATE_KEY"))) :=
  ⟨fun answers keys1 keys2 run1 run2 h1 h2 =>
      interactiveInit_keys lib newURL writable file answers keys1 keys2 run1 run2 h1 h2,
    fun chainName answers key1 key2 run1 run2 h1 h2 =>
      addChain_keys lib newURL writable file chainName answers key1 key2 run1 run2 h1 h2⟩

set_option maxRecDepth 1000000 in
/-- Two runs of the wizard and two runs of `add` with different keys: the
files written are the same and hold placeholders, not keys. -/
theorem privateKey_not_persisted_witness :
    exampleKeysA "ethereum" ≠ exampleKeysB "ethereum" ∧
      exampleKeysA "solana" ≠ exampleKeysB "solana" ∧
      (interactiveInit exampleLibrary exampleNewURL true .missing exampleAnswers
          exampleKeysA).map Run.file =
        some (.document ⟨some "testnet",
          some [("ethereum", ⟨"https://rpc.sepolia.org", "$\x7bETHEREUM_PRIVATE_KEY\x7d",
              "universal", "locking"⟩),
            ("solana", ⟨"https://api.testnet.solana.com", "$\x7bSOLANA_PRIVATE_KEY\x7d",
              "universal", "burning"⟩)]⟩) ∧
      (interactiveInit exampleLibrary exampleNewURL true .missing exampleAnswers
          exampleKeysB).map Run.file =
        (interactiveInit exampleLibrary exampleNewURL true .missing exampleAnswers
          exampleKeysA).map Run.file ∧
      (addChain exampleLibrary exampleNewURL true exampleFile "solana" exampleAddAnswers
          (exampleKeysB "solana")).map Run.file =
        (addChain exampleLibrary exampleNewURL true exampleFile "solana" exampleAddAnswers
          (exampleKeysA "solana")).map Run.file := by
  refine ⟨by decide, by decide, by decide, ?_, ?_⟩
  · cases hA : interactiveInit exampleLibrary exampleNewURL true .missing exampleAnswers
        exampleKeysA with
    | none => exact absurd hA (by decide)
    | some runA =>
      cases hB : interactiveInit exampleLibrary exampleNewURL true .missing exampleAnswers
          exampleKeysB with
      | none => exact absurd hB (by decide)
      | some runB =>
        have h := (privateKey_not_persisted exampleLibrary exampleNewURL true .missing).1
          exampleAnswers exampleKeysA exampleKeysB runA runB hA hB
        simp [h.1]
  · cases hA : addChain exampleLibrary exampleNewURL true exampleFile "solana"
        exampleAddAnswers (exampleKeysA "solana") with
    | none => exact absurd hA (by decide)
    | some runA =>
      cases hB : addChain exampleLibrary exampleNewURL true exampleFile "solana"
          exampleAddAnswers (exampleKeysB "solana") with
      | none => exact absurd hB (by decide)
      | some runB =>
        have h := (privateKey_not_persisted exampleLibrary exampleNewURL true exampleFile).2
          "solana" exampleAddAnswers (exampleKeysA "solana") (exampleKeysB "solana") runA runB
          hA hB
        simp [h.1]

/-- The value of `convertToWormholeFormat` when the format check passes, the
chain is in `CHAIN_NAME_MAP` and the library returns. -/
theorem convertToWormholeFormat_ok (lib : AddressLibrary) (address chain name universal : String)
    (hf : checkAddressFormat address chain = .ok ())
    (hg : getProperty CHAIN_NAME_MAP chain = .own name) (hn : (name != "") = true)
    (h : lib (.own name) address = .ok universal) :
    (convertToWormholeFormat lib address chain).result = .ok universal := by
  simp [convertToWormholeFormat, convertBody, hf, hg, PropertyValue.truthy, h, hn]

set_option maxRecDepth 1000000 in
/-- C13 (as stated) fails for `add`: on a file whose `ethereum` entry stores
the placeholder of the variable `ETH_KEY`, as the non-interactive flow writes
it, adding `solana` returns and writes a configuration in which that entry
still stores `ETH_KEY`, not the name made from the chain in upper case. -/
theorem addChain_keeps_other_placeholders :
    placeholder "ETH_KEY" ≠ placeholder (toUpperCase "ethereum" ++ "_PRIVATE_KEY") ∧
      ∀ (lib : AddressLibrary) (newURL : String → Except String Unit) (universal : String),
        newURL "https://api.testnet.solana.com" = .ok () →
        lib (.own "Solana") "11111111111111111111111111111111" = .ok universal →
        (addChain lib newURL true exampleFile "solana" exampleAddAnswers
            "aaaaaaaaaaaaaaaaaaaaaaaaa").map (fun run => (run.status, run.file)) =
          some (.returned, .document ⟨some "testnet",
            some [("ethereum",
                ⟨"https://rpc.sepolia.org", "$\x7bETH_KEY\x7d", "universal", "locking"⟩),
              ("base", ⟨"https://sepolia.base.org", "$\x7bBASE_KEY\x7d", "universal", "burning"⟩),
              ("solana", ⟨"https://api.testnet.solana.com", "$\x7bSOLANA_PRIVATE_KEY\x7d",
                universal, "burning"⟩)]⟩) := by
  refine ⟨by decide, fun lib newURL universal hurl hlib => ?_⟩
  have hv : isValidSolanaAddress "11111111111111111111111111111111" = true := by decide
  have hf : checkAddressFormat "11111111111111111111111111111111" "solana" = .ok () := by
    simp [checkAddressFormat, hv]
    rfl
  have hconv := convertToWormholeFormat_ok lib "11111111111111111111111111111111" "solana"
    "Solana" universal hf (by decide) (by decide) hlib
  have hu : rpcInputAccepted newURL "https://api.testnet.solana.com" = true := by
    have : startsWith "https://api.testnet.solana.com" "https://" = true := by decide
    simp [rpcInputAccepted, isValidUrl_eq, hurl, this]
  have ht : tokenInputAccepted "solana" "11111111111111111111111111111111" = true := by decide
  have hk : keyInputAccepted "solana" "aaaaaaaaaaaaaaaaaaaaaaaaa" = true := by decide
  have hm : MODES.contains "burning" = true := by decide
  have hname : (!("solana" != "")) = false := by decide
  have hsup : (!CHAINS.contains "solana") = false := by decide
  have hload : loadConfig exampleFile = (some ⟨some "testnet",
      some [("ethereum", ⟨"https://rpc.sepolia.org", "$\x7bETH_KEY\x7d", "universal", "locking"⟩),
        ("base", ⟨"https://sepolia.base.org", "$\x7bBASE_KEY\x7d", "universal", "burning"⟩)]⟩,
      []) := rfl
  have hown : (getProperty
      [("ethereum", (⟨"https://rpc.sepolia.org", "$\x7bETH_KEY\x7d", "universal", "locking"⟩ :
          ChainConfig)),
        ("base", ⟨"https://sepolia.base.org", "$\x7bBASE_KEY\x7d", "universal", "burning"⟩)]
      "solana").truthy (fun _ => true) = false := by decide
  have hans : exampleAddAnswers =
      ⟨"https://api.testnet.solana.com", "11111111111111111111111111111111", "burning"⟩ := rfl
  have hup : toUpperCase "solana" = "SOLANA" := by decide
  simp only [addChain, hload, hname, hsup, hown, Bool.false_eq_true, if_false, addPrompted,
    hans, hu, ht, hk, hm, Bool.not_true, hconv, setProperty_of_not_truthy _ _ _ hown,
    validateModeConstraints_some, hup]
  rfl

/-! ## The non-interactive `init` flow on distinct chain values -/

/-- The keys of an object after an assignment: a new key goes to the end, a
key already there leaves the keys as they are. -/
theorem setProperty_keys {α : Type} (entries : List (String × α)) (key : String) (value : α) :
    (setProperty entries key value).map Prod.fst =
      if key ∈ entries.map Prod.fst then entries.map Prod.fst
      else entries.map Prod.fst ++ [key] := by
  unfold setProperty
  by_cases h : key ∈ entries.map Prod.fst
  · have hany : entries.any (fun e => e.1 == key) = true := by
      obtain ⟨e, he, hk⟩ := List.mem_map.1 h
      exact List.any_eq_true.2 ⟨e, he, by simp [hk]⟩
    rw [if_pos hany, if_pos h, List.map_map]
    apply List.map_congr_left
    intro e _
    by_cases hk : e.1 = key
    · simp [hk]
    · simp [hk]
  · have hany : ¬ entries.any (fun e => e.1 == key) = true := by
      intro hc
      obtain ⟨e, he, hk⟩ := List.any_eq_true.1 hc
      exact h (List.mem_map.2 ⟨e, he, by simpa using hk⟩)
    rw [if_neg hany, if_neg h]
    simp

/-- A round of the loop of `nonInteractiveInit` that goes on has assigned the
entry of its chain. -/
theorem initChain_ok_chains (lib : AddressLibrary) (newURL : String → Except String Unit)
    (argv : InitArgv) (network : String) (p p2 : InitProgress) (chain : String)
    (h : initChain lib newURL argv network p chain = .ok p2) :
    ∃ value, p2.chains = setProperty p.chains chain value := by
  unfold initChain at h
  split at h
  · cases h
  · revert h
    dsimp only
    split
    · intro h
      cases h
    · split
      · intro h
        cases h
      · intro h
        cases h
      · split
        · intro h
          cases h
        · intro h
          cases h
        · split
          · intro h
            cases h
          · split
            · intro h
              cases h
            · split
              · intro h
                cases h
              · split
                · intro h
                  cases h
                · intro h
                  cases h
                  exact ⟨_, rfl⟩

/-- Over chain names that are pairwise distinct and new, the loop of
`nonInteractiveInit` appends one entry per name. -/
theorem initChain_foldlM_keys (lib : AddressLibrary) (newURL : String → Except String Unit)
    (argv : InitArgv) (network : String) (selectedChains : List String) :
    ∀ p p2 : InitProgress, selectedChains.Nodup →
      (∀ chain ∈ selectedChains, chain ∉ p.chains.map Prod.fst) →
      selectedChains.foldlM (initChain lib newURL argv network) p = .ok p2 →
      p2.chains.map Prod.fst = p.chains.map Prod.fst ++ selectedChains := by
  induction selectedChains with
  | nil =>
    intro p p2 _ _ h
    cases h
    simp
  | cons chain rest ih =>
    intro p p2 hnodup hnew h
    rw [List.foldlM_cons] at h
    cases hstep : initChain lib newURL argv network p chain with
    | error e =>
      rw [hstep] at h
      cases h
    | ok p1 =>
      rw [hstep] at h
      obtain ⟨value, hp1⟩ := initChain_ok_chains lib newURL argv network p p1 chain hstep
      have hkeys : p1.chains.map Prod.fst = p.chains.map Prod.fst ++ [chain] := by
        rw [hp1, setProperty_keys, if_neg (hnew chain (by simp))]
      have hn := List.nodup_cons.1 hnodup
      have hrest := ih p1 p2 hn.2 (fun c hc => by
        rw [hkeys]
        intro hmem
        rcases List.mem_append.1 hmem with hm | hm
        · exact hnew c (by simp [hc]) hm
        · have : c = chain := by simpa using hm
          exact hn.1 (this ▸ hc)) h
      rw [hrest, hkeys]
      simp

/-- When the non-interactive flow returns, the `--chain` values number at
least two and the file holds the entries its loop built. -/
theorem nonInteractiveInit_returned (lib : AddressLibrary)
    (newURL : String → Except String Unit) (writable : Bool) (file : ConfigFile)
    (argv : InitArgv)
    (h : (nonInteractiveInit lib newURL writable file argv).status = .returned) :
    ∃ selectedChains network p, argv.chain = some selectedChains ∧ 2 ≤ selectedChains.length ∧
      selectedChains.foldlM (initChain lib newURL argv network) ⟨[], []⟩ = .ok p ∧
      (nonInteractiveInit lib newURL writable file argv).file =
        .document ⟨some network, some p.chains⟩ := by
  revert h
  simp only [nonInteractiveInit]
  split
  · intro h
    cases h
  · split
    · intro h
      cases h
    · next selectedChains hchain =>
      split
      · intro h
        cases h
      · split
        · intro h
          cases h
        · next hlen =>
          split
          · next lines status hloop =>
            intro h
            exact absurd h (initChain_foldlM_error_status lib newURL argv _ _ _ _ _ hloop)
          · next p hloop =>
            intro h
            exact ⟨selectedChains, _, p, hchain, by omega, hloop,
              ((finishInit_spec writable file argv.force _ p).1 h).1⟩

/-- With pairwise distinct `--chain` values, a configuration written by the
non-interactive flow has one entry per value, hence at least two. -/
theorem nonInteractiveInit_distinct_chains (lib : AddressLibrary)
    (newURL : String → Except String Unit) (writable : Bool) (file : ConfigFile)
    (argv : InitArgv) (selectedChains : List String) (hchain : argv.chain = some selectedChains)
    (hnodup : selectedChains.Nodup)
    (h : (nonInteractiveInit lib newURL writable file argv).status = .returned) :
    ∃ network chains, (nonInteractiveInit lib newURL writable file argv).file =
        .document ⟨some network, some chains⟩ ∧
      chains.map Prod.fst = selectedChains ∧ 2 ≤ chains.length := by
  obtain ⟨selected, network, p, hsel, hlen, hloop, hfile⟩ :=
    nonInteractiveInit_returned lib newURL writable file argv h
  rw [hchain] at hsel
  cases hsel
  have hkeys := initChain_foldlM_keys lib newURL argv network selectedChains ⟨[], []⟩ p hnodup
    (fun _ _ => by simp) hloop
  simp only [List.map_nil, List.nil_append] at hkeys
  refine ⟨network, p.chains, hfile, hkeys, ?_⟩
  have : p.chains.length = selectedChains.length := by
    rw [← hkeys, List.length_map]
  omega

end WhDeployKit
